import Mathlib

/-! Complaint management system: request handlers over the flat-file store.

A shallow embedding of `src/server/db/models.js`,
`src/server/controllers/complaintController.js`,
`src/server/controllers/authController.js`, `src/server/middleware/auth.js`
and `src/server/routes/complaints.js`.

The two JSON files are modelled by the lists they hold. A handler takes the
collection, the caller resolved by `authenticateJWT`, the request and the
values the handler draws from its environment (`uuidv4()`,
`new Date().toISOString()`, the bcrypt salt) and returns the HTTP response
together with the collection afterwards. File-system failures are not modelled.
-/

namespace ComplaintSystem

/-! ## JavaScript values -/

/-- A value as it appears in a parsed JSON request body or in a stored record.
`undefined` is what reading an absent field gives; `object` stands for an array
or object and carries its JSON text. A number is a finite JSON number. -/
inductive JsValue where
  | undefined
  | null
  | bool (b : Bool)
  | num (q : ℚ)
  | str (s : String)
  | object (json : String)
  deriving DecidableEq, Repr

namespace JsValue

/-- JavaScript `ToBoolean`: the test made by `!v`, `v || w` and `if (v)`. -/
def truthy : JsValue → Bool
  | undefined => false
  | null => false
  | bool b => b
  | num q => decide (q ≠ 0)
  | str s => decide (s ≠ "")
  | object _ => true

/-- JavaScript `a || b`. -/
def or (a b : JsValue) : JsValue := if a.truthy then a else b

/-- JavaScript `a === b`. Two objects obtained from separate `JSON.parse`
calls are never the same reference, so objects compare unequal. -/
def strictEq : JsValue → JsValue → Bool
  | undefined, undefined => true
  | null, null => true
  | bool a, bool b => a == b
  | num a, num b => decide (a = b)
  | str a, str b => a == b
  | _, _ => false

/-- JavaScript `ToNumber`, `none` standing for `NaN`. Numeric strings are read
through `String.toInt?` and arrays/objects are taken to `NaN`; wherever this
function is used below the operand is afterwards required to be a number. -/
def toNumber : JsValue → Option ℚ
  | undefined => none
  | null => some 0
  | bool b => some (if b then 1 else 0)
  | num q => some q
  | str s => if s = "" then some 0 else (s.toInt?).map (fun (i : Int) => (i : ℚ))
  | object _ => none

/-- JavaScript `v < n` against a number literal. -/
def ltNum (v : JsValue) (n : ℚ) : Bool :=
  match v.toNumber with
  | some q => decide (q < n)
  | none => false

/-- JavaScript `v > n` against a number literal. -/
def gtNum (v : JsValue) (n : ℚ) : Bool :=
  match v.toNumber with
  | some q => decide (n < q)
  | none => false

/-- The test `Number.isInteger(v)`: false for every value that is not a number. -/
def isInteger : JsValue → Bool
  | num q => q.isInt
  | _ => false

end JsValue

/-! ## Records -/

/-- A user record of `users.json`. `id`, `password` (a bcrypt hash), `role` and
`createdAt` are written by the server; the other fields are copied from the
request body. -/
structure User where
  id : String
  username : JsValue
  password : String
  name : JsValue
  email : JsValue
  role : String
  createdAt : String
  deriving DecidableEq, Repr

/-- An entry of a complaint's `responses` array. A field that is absent reads
as `undefined`. -/
structure Response where
  id : String
  adminId : String
  adminName : JsValue
  message : JsValue
  statusChange : JsValue
  createdAt : String
  deriving DecidableEq, Repr

/-- A complaint record of `complaints.json`. -/
structure Complaint where
  id : String
  userId : String
  userName : JsValue
  title : JsValue
  description : JsValue
  category : JsValue
  status : JsValue
  responses : List Response
  rating : JsValue
  createdAt : String
  updatedAt : String
  deriving DecidableEq, Repr

/-- The `updatedData` argument of `complaintModel.update`: the fields it names. -/
structure ComplaintPatch where
  id : Option String := none
  userId : Option String := none
  userName : Option JsValue := none
  title : Option JsValue := none
  description : Option JsValue := none
  category : Option JsValue := none
  status : Option JsValue := none
  responses : Option (List Response) := none
  rating : Option JsValue := none
  createdAt : Option String := none
  updatedAt : Option String := none
  deriving DecidableEq, Repr

/-- The object spread `{ ...c, ...p }`. -/
def Complaint.merge (c : Complaint) (p : ComplaintPatch) : Complaint :=
  { id := p.id.getD c.id
    userId := p.userId.getD c.userId
    userName := p.userName.getD c.userName
    title := p.title.getD c.title
    description := p.description.getD c.description
    category := p.category.getD c.category
    status := p.status.getD c.status
    responses := p.responses.getD c.responses
    rating := p.rating.getD c.rating
    createdAt := p.createdAt.getD c.createdAt
    updatedAt := p.updatedAt.getD c.updatedAt }

/-- A whole complaint object passed as `updatedData`: every field is named. -/
def Complaint.toPatch (c : Complaint) : ComplaintPatch :=
  { id := some c.id
    userId := some c.userId
    userName := some c.userName
    title := some c.title
    description := some c.description
    category := some c.category
    status := some c.status
    responses := some c.responses
    rating := some c.rating
    createdAt := some c.createdAt
    updatedAt := some c.updatedAt }

/-! ## `complaintModel` -/

namespace complaintModel

/-- Method `complaintModel.getById`: `complaints.find(complaint => complaint.id === id)`. -/
def getById (complaints : List Complaint) (id : String) : Option Complaint :=
  complaints.find? (fun complaint => complaint.id == id)

/-- Method `complaintModel.getByUser`. -/
def getByUser (complaints : List Complaint) (userId : String) : List Complaint :=
  complaints.filter (fun complaint => complaint.userId == userId)

/-- Method `complaintModel.create`: push and write back. Returns the created record and
the collection as written. -/
def create (complaints : List Complaint) (complaint : Complaint) :
    Complaint × List Complaint :=
  (complaint, complaints ++ [complaint])

/-- Method `complaintModel.update`: `findIndex`, throw when `-1`, otherwise merge in place
and write back. Returns the outcome and the collection afterwards (nothing is
written when it throws). -/
def update (complaints : List Complaint) (id : String) (updatedData : ComplaintPatch) :
    Except String Complaint × List Complaint :=
  match complaints.findIdx? (fun complaint => complaint.id == id) with
  | none => (.error "Complaint not found", complaints)
  | some index =>
    match complaints.get? index with
    | none => (.error "Complaint not found", complaints)
    | some old =>
      let merged := old.merge updatedData
      (.ok merged, complaints.set index merged)

end complaintModel

/-! ## Complaint controller -/

/-- What a complaint handler sends: `res.status(..).json({ message, complaint })`.
The `receivedStatus`/`validStatuses` echo of the 400 reply of
`updateComplaintStatus` is not recorded. -/
structure HttpResponse where
  status : Nat
  message : String
  complaint : Option Complaint := none
  deriving DecidableEq, Repr

/-- The body of `POST /complaints`. -/
structure CreateBody where
  title : JsValue
  description : JsValue
  category : JsValue
  deriving DecidableEq, Repr

/-- Controller `createComplaint`. `uuid` is the value of `uuidv4()`, `createdAt` and
`updatedAt` the two readings of the clock. -/
def createComplaint (complaints : List Complaint) (user : User) (body : CreateBody)
    (uuid createdAt updatedAt : String) : HttpResponse × List Complaint :=
  if !body.title.truthy || !body.description.truthy || !body.category.truthy then
    ({ status := 400, message := "Title, description, and category are required" }, complaints)
  else
    let newComplaint : Complaint :=
      { id := uuid
        userId := user.id
        userName := user.name
        title := body.title
        description := body.description
        category := body.category
        status := .str "pending"
        responses := []
        rating := .num 0
        createdAt := createdAt
        updatedAt := updatedAt }
    let written := complaintModel.create complaints newComplaint
    ({ status := 201, message := "Complaint submitted successfully",
       complaint := some newComplaint }, written.2)

/-- The body of `POST /complaints/:id/respond`. -/
structure RespondBody where
  response : JsValue
  status : JsValue
  deriving DecidableEq, Repr

/-- Controller `respondToComplaint`. -/
def respondToComplaint (complaints : List Complaint) (user : User) (complaintId : String)
    (body : RespondBody) (uuid createdAt updatedAt : String) :
    HttpResponse × List Complaint :=
  if !body.response.truthy then
    ({ status := 400, message := "Response message is required" }, complaints)
  else
    match complaintModel.getById complaints complaintId with
    | none => ({ status := 404, message := "Complaint not found" }, complaints)
    | some complaint =>
      let responseObj : Response :=
        { id := uuid
          adminId := user.id
          adminName := user.name
          message := body.response
          statusChange := .undefined
          createdAt := createdAt }
      let updatedComplaint : Complaint :=
        { complaint with
          responses := complaint.responses ++ [responseObj]
          status := body.status.or complaint.status
          updatedAt := updatedAt }
      match complaintModel.update complaints complaintId updatedComplaint.toPatch with
      | (.error _, after) =>
        ({ status := 500, message := "Server error while responding to complaint" }, after)
      | (.ok _, after) =>
        ({ status := 200, message := "Response added successfully",
           complaint := some updatedComplaint }, after)

/-- The list literal of `updateComplaintStatus`. -/
def validStatuses : List String := ["pending", "in-progress", "resolved", "closed"]

/-- The test `validStatuses.includes(status)`. -/
def includesStatus (status : JsValue) : Bool :=
  validStatuses.any (fun s => (JsValue.str s).strictEq status)

/-- Controller `updateComplaintStatus`. -/
def updateComplaintStatus (complaints : List Complaint) (complaintId : String)
    (status : JsValue) (now : String) : HttpResponse × List Complaint :=
  if !status.truthy || !includesStatus status then
    ({ status := 400, message := "Valid status is required" }, complaints)
  else
    match complaintModel.getById complaints complaintId with
    | none => ({ status := 404, message := "Complaint not found" }, complaints)
    | some complaint =>
      let updatedComplaint : Complaint :=
        { complaint with status := status, updatedAt := now }
      match complaintModel.update complaints complaintId updatedComplaint.toPatch with
      | (.error _, after) =>
        ({ status := 500, message := "Server error while updating complaint status" }, after)
      | (.ok _, after) =>
        ({ status := 200, message := "Complaint status updated successfully",
           complaint := some updatedComplaint }, after)

/-- Controller `rateComplaint`. -/
def rateComplaint (complaints : List Complaint) (user : User) (complaintId : String)
    (rating : JsValue) (now : String) : HttpResponse × List Complaint :=
  if !rating.truthy || rating.ltNum 1 || rating.gtNum 5 || !rating.isInteger then
    ({ status := 400, message := "Rating must be an integer between 1 and 5" }, complaints)
  else
    match complaintModel.getById complaints complaintId with
    | none => ({ status := 404, message := "Complaint not found" }, complaints)
    | some complaint =>
      if complaint.userId != user.id then
        ({ status := 403, message := "Forbidden: You can only rate your own complaints" },
          complaints)
      else if !(complaint.status.strictEq (.str "resolved")) then
        ({ status := 400, message := "Only resolved complaints can be rated" }, complaints)
      else
        let updatedComplaint : Complaint :=
          { complaint with rating := rating, updatedAt := now }
        match complaintModel.update complaints complaintId updatedComplaint.toPatch with
        | (.error _, after) =>
          ({ status := 500, message := "Server error while rating complaint" }, after)
        | (.ok _, after) =>
          ({ status := 200, message := "Complaint rated successfully",
             complaint := some updatedComplaint }, after)

/-! ## Middleware and routes -/

/-- Middleware `requireAdmin`: `some` reply when it stops the request, `none` when
it calls `next()`. The caller has been attached by `authenticateJWT`. -/
def requireAdmin (user : User) : Option HttpResponse :=
  if user.role != "admin" then
    some { status := 403, message := "Forbidden: Admin access required" }
  else none

/-- An authenticated request to the complaints router that can write. -/
inductive ComplaintRequest where
  /-- `POST /` -/
  | post (user : User) (body : CreateBody) (uuid createdAt updatedAt : String)
  /-- `POST /:id/respond` -/
  | respond (user : User) (id : String) (body : RespondBody)
      (uuid createdAt updatedAt : String)
  /-- `PATCH /:id/status` -/
  | patchStatus (user : User) (id : String) (status : JsValue) (now : String)
  /-- `POST /:id/rate` -/
  | rate (user : User) (id : String) (rating : JsValue) (now : String)
  deriving Repr

/-- The router of `routes/complaints.js` after `authenticateJWT`: only
`PATCH /:id/status` is mounted behind `requireAdmin`. -/
def complaintsRouter (complaints : List Complaint) :
    ComplaintRequest → HttpResponse × List Complaint
  | .post user body uuid createdAt updatedAt =>
    createComplaint complaints user body uuid createdAt updatedAt
  | .respond user id body uuid createdAt updatedAt =>
    respondToComplaint complaints user id body uuid createdAt updatedAt
  | .patchStatus user id status now =>
    match requireAdmin user with
    | some denied => (denied, complaints)
    | none => updateComplaintStatus complaints id status now
  | .rate user id rating now => rateComplaint complaints user id rating now

/-- The complaint collections the server can hold: the empty file written by
`initializeDB`, then any sequence of authenticated requests. -/
inductive Reachable : List Complaint → Prop where
  | init : Reachable []
  | step {complaints : List Complaint} (req : ComplaintRequest) :
      Reachable complaints → Reachable (complaintsRouter complaints req).2

/-- Run a list of requests in order, keeping the collection. -/
def runRequests (complaints : List Complaint) : List ComplaintRequest → List Complaint
  | [] => complaints
  | req :: rest => runRequests (complaintsRouter complaints req).2 rest

/-! ## `userModel` and the auth controller -/

namespace userModel

/-- Method `userModel.getById`. -/
def getById (users : List User) (id : String) : Option User :=
  users.find? (fun user => user.id == id)

/-- Method `userModel.getByUsername`: `users.find(user => user.username === username)`. -/
def getByUsername (users : List User) (username : JsValue) : Option User :=
  users.find? (fun user => user.username.strictEq username)

/-- Method `userModel.create`: throw when a record has the username, otherwise push and
write back. Returns the outcome and the collection afterwards (nothing is
written when it throws). -/
def create (users : List User) (user : User) : Except String User × List User :=
  match users.find? (fun u => u.username.strictEq user.username) with
  | some _ => (.error "Username already exists", users)
  | none => (.ok user, users ++ [user])

end userModel

/-- The two functions of `bcryptjs` the controller calls, on strings: `hash(s, salt)`
and `compare(s, hash)`. Called with a value that is not a string, they reject. -/
structure Bcrypt where
  hash : String → String → String
  compare : String → String → Bool

/-- The payload handed to `jwt.sign`, standing for the token. -/
structure TokenPayload where
  id : String
  username : JsValue
  role : String
  deriving DecidableEq, Repr

/-- A user object with the `password` field taken out. -/
structure PublicUser where
  id : String
  username : JsValue
  name : JsValue
  email : JsValue
  role : String
  createdAt : String
  deriving DecidableEq, Repr

/-- The rest pattern `const { password, ...userWithoutPassword } = user`. -/
def User.withoutPassword (user : User) : PublicUser :=
  { id := user.id, username := user.username, name := user.name, email := user.email,
    role := user.role, createdAt := user.createdAt }

/-- What an auth handler sends: `res.status(..).json({ message, user, token })`. -/
structure AuthResponse where
  status : Nat
  message : String
  user : Option PublicUser := none
  token : Option TokenPayload := none
  deriving DecidableEq, Repr

/-- The body of `POST /auth/register` and, with `adminSecret`, of
`POST /auth/admin/create`. A `role` sent along is carried here; no handler reads it. -/
structure RegisterBody where
  username : JsValue
  password : JsValue
  name : JsValue
  email : JsValue
  adminSecret : JsValue := .undefined
  role : JsValue := .undefined
  deriving DecidableEq, Repr

/-- Controller `register`. `salt` is the value of `bcrypt.genSalt(10)`. -/
def register (bcrypt : Bcrypt) (users : List User) (body : RegisterBody)
    (uuid salt now : String) : AuthResponse × List User :=
  if !body.username.truthy || !body.password.truthy || !body.name.truthy
      || !body.email.truthy then
    ({ status := 400, message := "All fields are required" }, users)
  else
    match userModel.getByUsername users body.username with
    | some _ => ({ status := 400, message := "Username already exists" }, users)
    | none =>
      match body.password with
      | .str password =>
        let newUser : User :=
          { id := uuid
            username := body.username
            password := bcrypt.hash password salt
            name := body.name
            email := body.email
            role := "customer"
            createdAt := now }
        match userModel.create users newUser with
        | (.error _, after) =>
          ({ status := 500, message := "Server error during registration" }, after)
        | (.ok _, after) =>
          ({ status := 201, message := "User registered successfully",
             user := some newUser.withoutPassword,
             token := some { id := newUser.id, username := newUser.username,
                             role := newUser.role } }, after)
      | _ => ({ status := 500, message := "Server error during registration" }, users)

/-- The constant `ADMIN_SECRET`: `process.env.ADMIN_SECRET || 'admin_setup_secret'`. -/
def adminSecretOf (envAdminSecret : Option String) : String :=
  match envAdminSecret with
  | some s => if s ≠ "" then s else "admin_setup_secret"
  | none => "admin_setup_secret"

/-- Controller `createAdmin`. -/
def createAdmin (bcrypt : Bcrypt) (envAdminSecret : Option String) (users : List User)
    (body : RegisterBody) (uuid salt now : String) : AuthResponse × List User :=
  if !(body.adminSecret.strictEq (.str (adminSecretOf envAdminSecret))) then
    ({ status := 403, message := "Invalid admin secret" }, users)
  else if !body.username.truthy || !body.password.truthy || !body.name.truthy
      || !body.email.truthy then
    ({ status := 400, message := "All fields are required" }, users)
  else
    match userModel.getByUsername users body.username with
    | some _ => ({ status := 400, message := "Username already exists" }, users)
    | none =>
      match body.password with
      | .str password =>
        let newAdmin : User :=
          { id := uuid
            username := body.username
            password := bcrypt.hash password salt
            name := body.name
            email := body.email
            role := "admin"
            createdAt := now }
        match userModel.create users newAdmin with
        | (.error _, after) =>
          ({ status := 500, message := "Server error during admin creation" }, after)
        | (.ok _, after) =>
          ({ status := 201, message := "Admin user created successfully" }, after)
      | _ => ({ status := 500, message := "Server error during admin creation" }, users)

/-- No two users share a username: any two records of the collection hold
different username values (for arrays and objects, different JSON content). -/
def UniqueUsernames (users : List User) : Prop :=
  users.Pairwise (fun a b => a.username ≠ b.username)

/-- The values that `===` compares by content: everything but arrays and objects. -/
def JsValue.isPrimitive : JsValue → Bool
  | .object _ => false
  | _ => true

/-! ## Further model and controller functions -/

/-- The `updatedData` argument of `userModel.update`: the fields it names. -/
structure UserPatch where
  id : Option String := none
  username : Option JsValue := none
  password : Option String := none
  name : Option JsValue := none
  email : Option JsValue := none
  role : Option String := none
  createdAt : Option String := none
  deriving DecidableEq, Repr

/-- The object spread `{ ...u, ...p }` on user records. -/
def User.merge (u : User) (p : UserPatch) : User :=
  { id := p.id.getD u.id
    username := p.username.getD u.username
    password := p.password.getD u.password
    name := p.name.getD u.name
    email := p.email.getD u.email
    role := p.role.getD u.role
    createdAt := p.createdAt.getD u.createdAt }

/-- Method `userModel.update`: `findIndex`, throw when `-1`, otherwise merge in place and
write back. Returns the outcome and the collection afterwards (nothing is
written when it throws). -/
def userModel.update (users : List User) (id : String) (updatedData : UserPatch) :
    Except String User × List User :=
  match users.findIdx? (fun user => user.id == id) with
  | none => (.error "User not found", users)
  | some index =>
    match users.get? index with
    | none => (.error "User not found", users)
    | some old =>
      let merged := old.merge updatedData
      (.ok merged, users.set index merged)

/-- What `getComplaints` sends: `res.status(200).json({ complaints })`. -/
structure ListResponse where
  status : Nat
  complaints : List Complaint
  deriving DecidableEq, Repr

/-- Controller `getComplaints`: `complaintModel.getAll()` for an admin,
`complaintModel.getByUser(req.user.id)` for anyone else. -/
def getComplaints (complaints : List Complaint) (user : User) : ListResponse :=
  if user.role == "admin" then
    { status := 200, complaints := complaints }
  else
    { status := 200, complaints := complaintModel.getByUser complaints user.id }

/-- A second complaint, filed by `bob`. -/
def bobComplaint : Complaint :=
  { id := "c-2", userId := "u-bob", userName := .str "Bob", title := .str "Broken box",
    description := .str "Arrived damaged", category := .str "product", status := .str "pending",
    responses := [], rating := .num 0, createdAt := "t0", updatedAt := "t0" }

/-- A record that reuses the id of `aliceComplaint`. -/
def cloneComplaint : Complaint :=
  { bobComplaint with id := "c-1" }

/-! ## Specification predicates and sample data -/

/-- A rating the spec allows: a number that is one of the integers 1 to 5. -/
def ValidRating (r : JsValue) : Prop := ∃ n : ℤ, 1 ≤ n ∧ n ≤ 5 ∧ r = .num (n : ℚ)

/-- The four statuses of the data model. -/
def KnownStatus (v : JsValue) : Prop :=
  v = .str "pending" ∨ v = .str "in-progress" ∨ v = .str "resolved" ∨ v = .str "closed"

/-- A customer. -/
def alice : User :=
  { id := "u-alice", username := .str "alice", password := "$2a$10$alice",
    name := .str "Alice", email := .str "a@x.com", role := "customer",
    createdAt := "2024-01-01T00:00:00.000Z" }

/-- Another customer. -/
def bob : User :=
  { id := "u-bob", username := .str "bob", password := "$2a$10$bob",
    name := .str "Bob", email := .str "b@x.com", role := "customer",
    createdAt := "2024-01-01T00:00:01.000Z" }

/-- An administrator. -/
def root : User :=
  { id := "u-root", username := .str "root", password := "$2a$10$root",
    name := .str "Root", email := .str "r@x.com", role := "admin",
    createdAt := "2024-01-01T00:00:02.000Z" }

/-- A complete body for `POST /complaints`. -/
def billingBody : CreateBody :=
  { title := .str "Late invoice", description := .str "Charged twice", category := .str "billing" }

/-- The complaint `alice` gets from `billingBody`. -/
def aliceComplaint : Complaint :=
  { id := "c-1", userId := "u-alice", userName := .str "Alice", title := .str "Late invoice",
    description := .str "Charged twice", category := .str "billing", status := .str "pending",
    responses := [], rating := .num 0, createdAt := "t0", updatedAt := "t0" }

/-- The entry `respondToComplaint` builds for a caller and a message. -/
def Response.posted (user : User) (message : JsValue) (uuid createdAt : String) : Response :=
  { id := uuid, adminId := user.id, adminName := user.name, message := message,
    statusChange := .undefined, createdAt := createdAt }

/-- The complaint of `alice` after an administrator resolved it. -/
def resolvedComplaint : Complaint :=
  { aliceComplaint with
    status := .str "resolved"
    responses := [Response.posted root (.str "fixed") "r-1" "t1"]
    updatedAt := "t1" }

/-- The resolved complaint once `alice` has rated it 5. -/
def ratedComplaint : Complaint :=
  { resolvedComplaint with rating := .num 5, updatedAt := "t2" }

/-- A reply body that names no status. -/
def replyBody (text : String) : RespondBody :=
  { response := .str text, status := .undefined }

/-- The status each request of a list is answered with, run in order. -/
def runStatuses (complaints : List Complaint) : List ComplaintRequest → List Nat
  | [] => []
  | req :: rest =>
    (complaintsRouter complaints req).1.status ::
      runStatuses (complaintsRouter complaints req).2 rest

/-- Consecutive replies of one caller to one complaint, none naming a status: each
post gives the message, the `uuidv4()` value and the clock reading. -/
def replyRun (user : User) (id : String) (posts : List (JsValue × String × String)) :
    List ComplaintRequest :=
  posts.map (fun post =>
    ComplaintRequest.respond user id { response := post.1, status := .undefined }
      post.2.1 post.2.2 post.2.2)

/-- Four replies. -/
def fourPosts : List (JsValue × String × String) :=
  [(.str "any news?", "r-1", "t1"), (.str "hello?", "r-2", "t2"),
   (.str "still waiting", "r-3", "t3"), (.str "anyone there?", "r-4", "t4")]

/-- A reply body that also names a status outside the data model. -/
def bananaBody : RespondBody :=
  { response := .str "please look", status := .str "banana" }

/-- A session: a complaint is filed, an administrator resolves it with a response,
the owner rates it 5. -/
def ratedSession : List ComplaintRequest :=
  [.post alice billingBody "c-1" "t0" "t0",
   .respond root "c-1" { response := .str "fixed", status := .str "resolved" } "r-1" "t1" "t1",
   .rate alice "c-1" (.num 5) "t2"]

/-! ## Login, profile, single complaint, homepage, middleware and client view -/

/-- The body of `POST /auth/login`. -/
structure LoginBody where
  username : JsValue
  password : JsValue
  deriving DecidableEq, Repr

/-- Controller `login`. It writes nothing. `bcrypt.compare` rejects a password that is
not a string, which the `catch` turns into 500. -/
def login (bcrypt : Bcrypt) (users : List User) (body : LoginBody) : AuthResponse :=
  if !body.username.truthy || !body.password.truthy then
    { status := 400, message := "Username and password are required" }
  else
    match userModel.getByUsername users body.username with
    | none => { status := 401, message := "Invalid credentials" }
    | some user =>
      match body.password with
      | .str password =>
        if !bcrypt.compare password user.password then
          { status := 401, message := "Invalid credentials" }
        else
          { status := 200, message := "Login successful",
            user := some user.withoutPassword,
            token := some { id := user.id, username := user.username, role := user.role } }
      | _ => { status := 500, message := "Server error during login" }

/-- What `getProfile` sends: `res.status(200).json({ user })`. -/
structure ProfileResponse where
  status : Nat
  user : PublicUser
  deriving DecidableEq, Repr

/-- Controller `getProfile`, on the user attached by `authenticateJWT`. -/
def getProfile (user : User) : ProfileResponse :=
  { status := 200, user := user.withoutPassword }

/-- The body of `PUT /auth/profile`. -/
structure ProfileBody where
  name : JsValue
  email : JsValue
  currentPassword : JsValue := .undefined
  newPassword : JsValue := .undefined
  deriving DecidableEq, Repr

/-- Controller `updateProfile`. `caller` is `req.user`; `salt` is the value of
`bcrypt.genSalt(10)`. -/
def updateProfile (bcrypt : Bcrypt) (users : List User) (caller : User) (body : ProfileBody)
    (salt : String) : AuthResponse × List User :=
  if !body.name.truthy || !body.email.truthy then
    ({ status := 400, message := "Name and email are required" }, users)
  else
    match userModel.getById users caller.id with
    | none => ({ status := 404, message := "User not found" }, users)
    | some user =>
      let finish (updateData : UserPatch) : AuthResponse × List User :=
        match userModel.update users caller.id updateData with
        | (.error _, after) =>
          ({ status := 500, message := "Server error while updating profile" }, after)
        | (.ok updatedUser, after) =>
          ({ status := 200, message := "Profile updated successfully",
             user := some updatedUser.withoutPassword }, after)
      if body.newPassword.truthy then
        if !body.currentPassword.truthy then
          ({ status := 400, message := "Current password is required to set a new password" },
            users)
        else
          match body.currentPassword with
          | .str currentPassword =>
            if !bcrypt.compare currentPassword user.password then
              ({ status := 400, message := "Current password is incorrect" }, users)
            else
              match body.newPassword with
              | .str newPassword =>
                finish { name := some body.name, email := some body.email,
                         password := some (bcrypt.hash newPassword salt) }
              | _ => ({ status := 500, message := "Server error while updating profile" }, users)
          | _ => ({ status := 500, message := "Server error while updating profile" }, users)
      else
        finish { name := some body.name, email := some body.email }

/-- A user record as the JSON object it is stored as: its keys with their values. -/
def User.toObject (u : User) : List (String × JsValue) :=
  [("id", .str u.id), ("username", u.username), ("password", .str u.password),
   ("name", u.name), ("email", u.email), ("role", .str u.role),
   ("createdAt", .str u.createdAt)]

/-- The user object of a reply as a JSON object. -/
def PublicUser.toObject (u : PublicUser) : List (String × JsValue) :=
  [("id", .str u.id), ("username", u.username), ("name", u.name), ("email", u.email),
   ("role", .str u.role), ("createdAt", .str u.createdAt)]

/-- Controller `getComplaint`. Its 200 reply is `{ complaint }`, with no message
(recorded as the empty string). -/
def getComplaint (complaints : List Complaint) (user : User) (complaintId : String) :
    HttpResponse :=
  match complaintModel.getById complaints complaintId with
  | none => { status := 404, message := "Complaint not found" }
  | some complaint =>
    if user.role != "admin" && complaint.userId != user.id then
      { status := 403,
        message := "Forbidden: You do not have permission to view this complaint" }
    else
      { status := 200, message := "", complaint := some complaint }

/-- The value of the comparator
`(a, b) => new Date(b.createdAt) - new Date(a.createdAt)`, `none` standing for
`NaN`. `dateMs s` is the time value of `new Date(s)` in milliseconds, `none` when
`s` does not parse as a date (Invalid Date, whose number value is `NaN`). -/
def compareCreatedAt (dateMs : String → Option ℤ) (a b : Complaint) : Option ℤ :=
  match dateMs b.createdAt, dateMs a.createdAt with
  | some timeB, some timeA => some (timeB - timeA)
  | _, _ => none

/-- Whether `Array.prototype.sort` may leave `a` before `b`: the comparator value is
not positive, where the sort takes `NaN` as `+0`. -/
def keepsOrder (dateMs : String → Option ℤ) (a b : Complaint) : Bool :=
  match compareCreatedAt dateMs a b with
  | some v => decide (v ≤ 0)
  | none => true

/-- The order the sort arranges by: `a` may stay before `b`. -/
def newerFirst (dateMs : String → Option ℤ) (a b : Complaint) : Prop :=
  keepsOrder dateMs a b = true

instance (dateMs : String → Option ℤ) : DecidableRel (newerFirst dateMs) :=
  fun a b => inferInstanceAs (Decidable (keepsOrder dateMs a b = true))

/-- The object literal mapped over the recent complaints, as a JSON object. -/
def publicInfo (c : Complaint) : List (String × JsValue) :=
  [("id", .str c.id), ("title", c.title), ("category", c.category), ("status", c.status),
   ("createdAt", .str c.createdAt), ("updatedAt", .str c.updatedAt),
   ("rating", c.rating.or (.num 0))]

/-- The `recentComplaints` field of the reply of `getHomepageData`:
`[...allComplaints].sort(..).slice(0, 5).map(..)`. `Array.prototype.sort` is a stable
sort, as insertion sort is: when every stamp parses the result is the stable
arrangement newest first, and when every comparison gives `NaN` the array keeps
its order. When some stamps parse and others do not the comparator is not
consistent and ECMAScript leaves the order to the engine. -/
def recentComplaints (dateMs : String → Option ℤ) (allComplaints : List Complaint) :
    List (List (String × JsValue)) :=
  ((allComplaints.insertionSort (newerFirst dateMs)).take 5).map publicInfo

/-- The loop of the `consecutiveUserMessages` effect over the responses from the last
one down: stop at the first response with an `adminName`, count the others. -/
def countFromEnd : List Response → Nat → Nat
  | [], count => count
  | response :: earlier, count =>
    if response.adminName.truthy then count else countFromEnd earlier (count + 1)

/-- The value the effect of the customer detail view stores in
`consecutiveUserMessages`. -/
def consecutiveUserMessages (responses : List Response) : Nat :=
  countFromEnd responses.reverse 0

/-- The function `canReply` of the customer detail view. -/
def canReply (currentComplaint : Option Complaint) (consecutive : Nat) : Bool :=
  match currentComplaint with
  | none => false
  | some complaint =>
    if complaint.status.strictEq (.str "resolved") || complaint.status.strictEq (.str "closed")
    then false
    else decide (consecutive < 3)

/-- The route parameters `ensureOwnership` reads. -/
structure OwnershipParams where
  userId : Option String := none
  complaintId : Option String := none
  deriving DecidableEq, Repr

/-- Truthiness of a route parameter: present and not the empty string. -/
def paramTruthy : Option String → Bool
  | some s => decide (s ≠ "")
  | none => false

/-- Middleware `ensureOwnership`: `some` reply when it stops the request, `none` when
it calls `next()`. -/
def ensureOwnership (user : User) (params : OwnershipParams) : Option HttpResponse :=
  if user.role == "admin" then none
  else if paramTruthy params.userId && params.userId == some user.id then none
  else if paramTruthy params.complaintId then none
  else some { status := 403,
              message := "Forbidden: You do not have permission to access this resource" }

/-- A stand-in for bcrypt on the sample data: the hash is the password itself and
`compare` is equality. -/
def sampleBcrypt : Bcrypt :=
  { hash := fun s _ => s, compare := fun s hash => s == hash }

/-- The registration of the scenario. -/
def aliceRegistration : RegisterBody :=
  { username := .str "alice", password := .str "pw123", name := .str "Alice",
    email := .str "a@x.com" }

/-- A user record whose stored hash is, for `sampleBcrypt`, that of "pw123". -/
def carol : User :=
  { id := "u-carol", username := .str "carol", password := "pw123",
    name := .str "Carol", email := .str "c@x.com", role := "customer",
    createdAt := "2024-01-01T00:00:03.000Z" }

/-- A registration whose body also carries `role: 'admin'`. -/
def pushyRegistration : RegisterBody :=
  { username := .str "mallory", password := .str "pw", name := .str "Mallory",
    email := .str "m@x.com", role := .str "admin" }

/-- A password change for `carol` with a wrong current password. -/
def wrongPasswordChange : ProfileBody :=
  { name := .str "Carol", email := .str "c@x.com", currentPassword := .str "guess",
    newPassword := .str "pw456" }

/-- The time values of `new Date(s)` for the stamps of the sample complaints, as
`toISOString()` writes them; "unknown", like any string that is not in the
table, stands for a stamp that does not parse as a date. -/
def sampleDate (stamp : String) : Option ℤ :=
  [("2024-01-01T00:00:00.000Z", (1704067200000 : ℤ)),
   ("2024-01-02T00:00:00.000Z", 1704153600000),
   ("2024-01-03T00:00:00.000Z", 1704240000000),
   ("2024-01-04T00:00:00.000Z", 1704326400000),
   ("2024-01-05T00:00:00.000Z", 1704412800000),
   ("2024-01-06T00:00:00.000Z", 1704499200000)].lookup stamp

/-- The complaint of `alice` under another id and creation stamp. -/
def stamped (id stamp : String) : Complaint :=
  { aliceComplaint with id := id, createdAt := stamp }

/-- Six complaints created on six different days, stored out of order. -/
def sixComplaints : List Complaint :=
  [stamped "a" "2024-01-03T00:00:00.000Z", stamped "b" "2024-01-01T00:00:00.000Z",
   stamped "c" "2024-01-06T00:00:00.000Z", stamped "d" "2024-01-02T00:00:00.000Z",
   stamped "e" "2024-01-05T00:00:00.000Z", stamped "f" "2024-01-04T00:00:00.000Z"]

/-- Six complaints of which only the last one has a `createdAt` that is a date. -/
def undatedComplaints : List Complaint :=
  [stamped "a" "unknown", stamped "b" "unknown", stamped "c" "unknown",
   stamped "d" "unknown", stamped "e" "unknown", stamped "f" "2024-01-06T00:00:00.000Z"]

/-- A thread as the client expects it: an admin response, then two customer replies
that carry no `adminName`. -/
def openThread : Complaint :=
  { aliceComplaint with
    responses :=
      [Response.posted root (.str "looking into it") "r-1" "t1",
       { Response.posted alice (.str "thanks") "r-2" "t2" with adminName := .undefined },
       { Response.posted alice (.str "any news?") "r-3" "t3" with adminName := .undefined }] }

/-- A registration whose username is the array `["alice"]`. -/
def arrayRegistration : RegisterBody :=
  { username := .object "[\"alice\"]", password := .str "pw", name := .str "A",
    email := .str "a@x.com" }

/-- The record `register` builds from `arrayRegistration` under `sampleBcrypt`. -/
def arrayUser (id createdAt : String) : User :=
  { id := id, username := .object "[\"alice\"]", password := "pw", name := .str "A",
    email := .str "a@x.com", role := "customer", createdAt := createdAt }

/-! ## Lemmas on the complaint repository -/

theorem Complaint.merge_toPatch (c d : Complaint) : c.merge d.toPatch = d := by
  cases d
  simp [Complaint.merge, Complaint.toPatch]

theorem complaintModel.getById_cons (x : Complaint) (cs : List Complaint) (id : String) :
    complaintModel.getById (x :: cs) id =
      if x.id = id then some x else complaintModel.getById cs id := by
  unfold complaintModel.getById
  by_cases h : x.id = id <;> simp [List.find?_cons, h]

theorem complaintModel.getById_id {cs : List Complaint} {id : String} {c : Complaint}
    (h : complaintModel.getById cs id = some c) : c.id = id := by
  unfold complaintModel.getById at h
  have := List.find?_some h
  simpa using this

theorem complaintModel.getById_mem {cs : List Complaint} {id : String} {c : Complaint}
    (h : complaintModel.getById cs id = some c) : c ∈ cs := by
  unfold complaintModel.getById at h
  exact List.mem_of_find?_eq_some h

/-- Unfolding of `update` along the list: the first record with the id is merged. -/
theorem complaintModel.update_cons (x : Complaint) (cs : List Complaint) (id : String)
    (p : ComplaintPatch) :
    complaintModel.update (x :: cs) id p =
      if x.id = id then (.ok (x.merge p), x.merge p :: cs)
      else ((complaintModel.update cs id p).1, x :: (complaintModel.update cs id p).2) := by
  by_cases h : x.id = id
  · simp [complaintModel.update, List.findIdx?_cons, h]
  · simp only [complaintModel.update, List.findIdx?_cons, h, if_false, beq_iff_eq,
      List.findIdx?_succ]
    cases hi : List.findIdx? (fun complaint => complaint.id == id) cs 0 with
    | none => simp
    | some i =>
      simp only [Option.map_some', List.get?_cons_succ, zero_add]
      cases hg : cs.get? i with
      | none => simp
      | some old => simp

/-- When `getById` finds a record, `update` succeeds with the merge of that record. -/
theorem complaintModel.update_of_getById {cs : List Complaint} {id : String} {c : Complaint}
    (p : ComplaintPatch) (h : complaintModel.getById cs id = some c) :
    (complaintModel.update cs id p).1 = .ok (c.merge p) := by
  induction cs with
  | nil => simp [complaintModel.getById] at h
  | cons x cs ih =>
    rw [complaintModel.getById_cons] at h
    rw [complaintModel.update_cons]
    by_cases hx : x.id = id
    · simp only [hx, if_true, Option.some.injEq] at h
      subst h
      simp [hx]
    · simp only [hx, if_false] at h
      simp [hx, ih h]

/-- After a successful `update` whose merge keeps the id, `getById` returns the merge. -/
theorem complaintModel.getById_update {cs : List Complaint} {id : String} {c : Complaint}
    (p : ComplaintPatch) (h : complaintModel.getById cs id = some c)
    (hid : (c.merge p).id = id) :
    complaintModel.getById (complaintModel.update cs id p).2 id = some (c.merge p) := by
  induction cs with
  | nil => simp [complaintModel.getById] at h
  | cons x cs ih =>
    rw [complaintModel.getById_cons] at h
    rw [complaintModel.update_cons]
    by_cases hx : x.id = id
    · simp only [hx, if_true, Option.some.injEq] at h
      subst h
      simp [hx, complaintModel.getById_cons, hid]
    · simp only [hx, if_false] at h
      simp [hx, complaintModel.getById_cons, ih h]

/-- Every record after `update` is a record from before or the merge of one. -/
theorem complaintModel.mem_update {cs : List Complaint} {id : String} {p : ComplaintPatch}
    {d : Complaint} (h : d ∈ (complaintModel.update cs id p).2) :
    d ∈ cs ∨ ∃ c ∈ cs, c.id = id ∧ d = c.merge p := by
  induction cs with
  | nil => simp [complaintModel.update] at h
  | cons x cs ih =>
    rw [complaintModel.update_cons] at h
    by_cases hx : x.id = id
    · simp only [hx, if_true, List.mem_cons] at h
      rcases h with h | h
      · exact Or.inr ⟨x, List.mem_cons_self _ _, hx, h⟩
      · exact Or.inl (List.mem_cons_of_mem _ h)
    · simp only [hx, if_false, List.mem_cons] at h
      rcases h with h | h
      · exact Or.inl (h ▸ List.mem_cons_self _ _)
      · rcases ih h with h1 | ⟨c, hc, hcid, hd⟩
        · exact Or.inl (List.mem_cons_of_mem _ h1)
        · exact Or.inr ⟨c, List.mem_cons_of_mem _ hc, hcid, hd⟩

/-! ## Rating validation -/

/-- The guard of `rateComplaint` lets through exactly the valid ratings. -/
theorem ratingGuard_false_iff (r : JsValue) :
    (!r.truthy || r.ltNum 1 || r.gtNum 5 || !r.isInteger) = false ↔ ValidRating r := by
  constructor
  · intro h
    simp only [Bool.or_eq_false_iff, Bool.not_eq_false'] at h
    obtain ⟨⟨⟨_, hlt⟩, hgt⟩, hint⟩ := h
    cases r with
    | num q =>
      simp only [JsValue.isInteger, Rat.isInt, beq_iff_eq] at hint
      have hq : ((q.num : ℤ) : ℚ) = q := Rat.coe_int_num_of_den_eq_one hint
      simp only [JsValue.ltNum, JsValue.toNumber, decide_eq_false_iff_not, not_lt] at hlt
      simp only [JsValue.gtNum, JsValue.toNumber, decide_eq_false_iff_not, not_lt] at hgt
      refine ⟨q.num, ?_, ?_, by rw [hq]⟩
      · rw [← hq] at hlt
        exact_mod_cast hlt
      · rw [← hq] at hgt
        exact_mod_cast hgt
    | _ => simp [JsValue.isInteger] at hint
  · rintro ⟨n, h1, h5, rfl⟩
    have hn0 : (n : ℚ) ≠ 0 := by
      have : n ≠ 0 := by omega
      exact_mod_cast this
    have h1q : ¬ ((n : ℚ) < 1) := by
      have : ¬ (n < 1) := by omega
      exact_mod_cast this
    have h5q : ¬ ((5 : ℚ) < n) := by
      have : ¬ (5 < n) := by omega
      exact_mod_cast this
    simp [JsValue.truthy, JsValue.ltNum, JsValue.gtNum, JsValue.toNumber, JsValue.isInteger,
      Rat.isInt, hn0, h1q, h5q]

theorem JsValue.strictEq_str (v : JsValue) (s : String) :
    v.strictEq (.str s) = true ↔ v = .str s := by
  cases v <;> simp [JsValue.strictEq]

/-! ## Claims on the complaint controller -/

/-- C1: for every store, caller and body whose title, description and category
all pass the handler's presence test (every non-empty string does),
`createComplaint` answers 201 and appends one complaint with status 'pending',
rating 0, no responses, the caller's id as `userId` and the caller's name as
`userName`. -/
theorem createComplaint_initial_state (complaints : List Complaint) (user : User)
    (body : CreateBody) (uuid createdAt updatedAt : String)
    (ht : body.title.truthy = true) (hd : body.description.truthy = true)
    (hc : body.category.truthy = true) :
    (createComplaint complaints user body uuid createdAt updatedAt).1.status = 201 ∧
    ∃ c : Complaint,
      (createComplaint complaints user body uuid createdAt updatedAt).2 = complaints ++ [c] ∧
      (createComplaint complaints user body uuid createdAt updatedAt).1.complaint = some c ∧
      c.status = .str "pending" ∧ c.rating = .num 0 ∧ c.responses = [] ∧
      c.userId = user.id ∧ c.userName = user.name := by
  simp [createComplaint, complaintModel.create, ht, hd, hc]

theorem createComplaint_initial_state_witness :
    (billingBody.title.truthy = true ∧ billingBody.description.truthy = true ∧
      billingBody.category.truthy = true) ∧
    ((createComplaint [] alice billingBody "c-1" "t0" "t0").1.status = 201 ∧
      ∃ c : Complaint,
        (createComplaint [] alice billingBody "c-1" "t0" "t0").2 = [] ++ [c] ∧
        (createComplaint [] alice billingBody "c-1" "t0" "t0").1.complaint = some c ∧
        c.status = .str "pending" ∧ c.rating = .num 0 ∧ c.responses = [] ∧
        c.userId = alice.id ∧ c.userName = alice.name) :=
  ⟨⟨by decide, by decide, by decide⟩,
    createComplaint_initial_state [] alice billingBody "c-1" "t0" "t0"
      (by decide) (by decide) (by decide)⟩

/-- The outcome of `rateComplaint` once the rating guard and the three checks pass. -/
theorem rateComplaint_ok {complaints : List Complaint} {user : User} {id : String}
    {r : JsValue} {c : Complaint} (now : String) (hr : ValidRating r)
    (hc : complaintModel.getById complaints id = some c) (hown : c.userId = user.id)
    (hres : c.status = .str "resolved") :
    rateComplaint complaints user id r now =
      ({ status := 200, message := "Complaint rated successfully",
         complaint := some { c with rating := r, updatedAt := now } },
        (complaintModel.update complaints id
          (Complaint.toPatch { c with rating := r, updatedAt := now })).2) := by
  have hg := (ratingGuard_false_iff r).2 hr
  have hu := complaintModel.update_of_getById
    (Complaint.toPatch { c with rating := r, updatedAt := now }) hc
  have h1 : (c.userId != user.id) = false := by simp [hown]
  have h2 : (!(c.status.strictEq (.str "resolved"))) = false := by
    simp [hres, JsValue.strictEq]
  unfold rateComplaint
  rw [hg]
  simp only [Bool.false_eq_true, if_false, hc, h1, h2]
  rcases hupd : complaintModel.update complaints id
    (Complaint.toPatch { c with rating := r, updatedAt := now }) with ⟨res, after⟩
  rw [hupd] at hu
  simp only at hu
  subst hu
  rfl

/-- C2: `rateComplaint` answers 200 exactly when the rating is an integer from 1 to
5, the complaint exists, it is resolved and the caller owns it, and then the
stored complaint carries the new rating. Otherwise it answers 400 for a bad
rating, 404 for an absent complaint, 403 for a caller who is not the owner and
400 for a complaint that is not resolved, tested in this order. -/
theorem rateComplaint_outcome (complaints : List Complaint) (user : User) (id : String)
    (r : JsValue) (now : String) :
    ((rateComplaint complaints user id r now).1.status = 200 ↔
      ValidRating r ∧ ∃ c, complaintModel.getById complaints id = some c ∧
        c.status = .str "resolved" ∧ user.id = c.userId) ∧
    (∀ c, (rateComplaint complaints user id r now).1.status = 200 →
      complaintModel.getById complaints id = some c →
      complaintModel.getById (rateComplaint complaints user id r now).2 id =
        some { c with rating := r, updatedAt := now }) ∧
    (¬ ValidRating r → (rateComplaint complaints user id r now).1.status = 400) ∧
    (ValidRating r → complaintModel.getById complaints id = none →
      (rateComplaint complaints user id r now).1.status = 404) ∧
    (ValidRating r → ∀ c, complaintModel.getById complaints id = some c →
      user.id ≠ c.userId → (rateComplaint complaints user id r now).1.status = 403) ∧
    (ValidRating r → ∀ c, complaintModel.getById complaints id = some c →
      user.id = c.userId → c.status ≠ .str "resolved" →
      (rateComplaint complaints user id r now).1.status = 400) := by
  have hbad : ¬ ValidRating r → (rateComplaint complaints user id r now).1.status = 400 := by
    intro hr
    have hg : (!r.truthy || r.ltNum 1 || r.gtNum 5 || !r.isInteger) = true := by
      rw [← Bool.not_eq_false]
      exact fun h => hr ((ratingGuard_false_iff r).1 h)
    unfold rateComplaint
    rw [hg]
    rfl
  have habsent : ValidRating r → complaintModel.getById complaints id = none →
      (rateComplaint complaints user id r now).1.status = 404 := by
    intro hr hc
    unfold rateComplaint
    rw [(ratingGuard_false_iff r).2 hr]
    simp [hc]
  have hforeign : ValidRating r → ∀ c, complaintModel.getById complaints id = some c →
      user.id ≠ c.userId → (rateComplaint complaints user id r now).1.status = 403 := by
    intro hr c hc hown
    unfold rateComplaint
    rw [(ratingGuard_false_iff r).2 hr]
    simp [hc, Ne.symm hown]
  have hopen : ValidRating r → ∀ c, complaintModel.getById complaints id = some c →
      user.id = c.userId → c.status ≠ .str "resolved" →
      (rateComplaint complaints user id r now).1.status = 400 := by
    intro hr c hc hown hres
    have hs : c.status.strictEq (.str "resolved") = false := by
      rw [← Bool.not_eq_true, JsValue.strictEq_str]
      exact hres
    unfold rateComplaint
    rw [(ratingGuard_false_iff r).2 hr]
    simp [hc, hown, hs]
  refine ⟨⟨?_, ?_⟩, ?_, hbad, habsent, hforeign, hopen⟩
  · intro h200
    by_cases hr : ValidRating r
    · refine ⟨hr, ?_⟩
      cases hc : complaintModel.getById complaints id with
      | none => rw [habsent hr hc] at h200; omega
      | some c =>
        by_cases hown : user.id = c.userId
        · by_cases hres : c.status = .str "resolved"
          · exact ⟨c, rfl, hres, hown⟩
          · rw [hopen hr c hc hown hres] at h200; omega
        · rw [hforeign hr c hc hown] at h200; omega
    · rw [hbad hr] at h200; omega
  · rintro ⟨hr, c, hc, hres, hown⟩
    rw [rateComplaint_ok now hr hc hown.symm hres]
  · intro c h200 hc
    by_cases hr : ValidRating r
    · by_cases hown : user.id = c.userId
      · by_cases hres : c.status = .str "resolved"
        · rw [rateComplaint_ok now hr hc hown.symm hres]
          have := complaintModel.getById_update
            (Complaint.toPatch { c with rating := r, updatedAt := now }) hc
            (by rw [Complaint.merge_toPatch]; exact complaintModel.getById_id (c := c) hc)
          rw [Complaint.merge_toPatch] at this
          exact this
        · rw [hopen hr c hc hown hres] at h200; omega
      · rw [hforeign hr c hc hown] at h200; omega
    · rw [hbad hr] at h200; omega

theorem rateComplaint_outcome_witness :
    (rateComplaint [resolvedComplaint] alice "c-1" (.num 5) "t2").1.status = 200 :=
  (rateComplaint_outcome [resolvedComplaint] alice "c-1" (.num 5) "t2").1.2
    ⟨⟨5, by decide, by decide, by norm_num⟩, resolvedComplaint, by decide, by decide, by decide⟩

/-- C3 (as stated) fails: `ratedComplaint` is resolved and already rated 5, and a
second rating 4 by its owner is answered 200 and replaces the stored rating. -/
theorem rateComplaint_second_rating_accepted :
    complaintModel.getById [ratedComplaint] "c-1" = some ratedComplaint ∧
    ratedComplaint.status = .str "resolved" ∧ ratedComplaint.rating = .num 5 ∧
    ratedComplaint.userId = alice.id ∧
    (rateComplaint [ratedComplaint] alice "c-1" (.num 4) "t3").1.status = 200 ∧
    (rateComplaint [ratedComplaint] alice "c-1" (.num 4) "t3").2 =
      [{ ratedComplaint with rating := .num 4, updatedAt := "t3" }] := by
  decide

/-- C3 (amended): the rating is not write-once. For every resolved complaint,
whatever rating it already holds, a `rateComplaint` call by its owner with a
valid rating is answered 200 and the stored rating becomes the new value. -/
theorem rateComplaint_overwrites (complaints : List Complaint) (user : User) (id : String)
    (r : JsValue) (now : String) (c : Complaint)
    (hc : complaintModel.getById complaints id = some c)
    (hres : c.status = .str "resolved") (hown : c.userId = user.id) (hr : ValidRating r) :
    (rateComplaint complaints user id r now).1.status = 200 ∧
    complaintModel.getById (rateComplaint complaints user id r now).2 id =
      some { c with rating := r, updatedAt := now } := by
  rw [rateComplaint_ok now hr hc hown hres]
  refine ⟨rfl, ?_⟩
  have := complaintModel.getById_update
    (Complaint.toPatch { c with rating := r, updatedAt := now }) hc
    (by rw [Complaint.merge_toPatch]; exact complaintModel.getById_id (c := c) hc)
  rw [Complaint.merge_toPatch] at this
  exact this

theorem rateComplaint_overwrites_witness :
    (complaintModel.getById [ratedComplaint] "c-1" = some ratedComplaint ∧
      ratedComplaint.status = .str "resolved" ∧ ratedComplaint.userId = alice.id ∧
      ValidRating (.num 4)) ∧
    ((rateComplaint [ratedComplaint] alice "c-1" (.num 4) "t3").1.status = 200 ∧
      complaintModel.getById (rateComplaint [ratedComplaint] alice "c-1" (.num 4) "t3").2 "c-1" =
        some { ratedComplaint with rating := .num 4, updatedAt := "t3" }) :=
  ⟨⟨by decide, by decide, by decide, ⟨4, by decide, by decide, by norm_num⟩⟩,
    rateComplaint_overwrites [ratedComplaint] alice "c-1" (.num 4) "t3" ratedComplaint
      (by decide) (by decide) (by decide) ⟨4, by decide, by decide, by norm_num⟩⟩

/-- The outcome of `respondToComplaint` for a non-empty message on an existing
complaint: no other test is made. -/
theorem respondToComplaint_ok {complaints : List Complaint} {id : String} {c : Complaint}
    (user : User) (body : RespondBody) (uuid createdAt updatedAt : String)
    (hm : body.response.truthy = true)
    (hc : complaintModel.getById complaints id = some c) :
    respondToComplaint complaints user id body uuid createdAt updatedAt =
      ({ status := 200, message := "Response added successfully",
         complaint := some { c with
           responses := c.responses ++ [Response.posted user body.response uuid createdAt]
           status := body.status.or c.status
           updatedAt := updatedAt } },
        (complaintModel.update complaints id
          (Complaint.toPatch { c with
            responses := c.responses ++ [Response.posted user body.response uuid createdAt]
            status := body.status.or c.status
            updatedAt := updatedAt })).2) := by
  have hu := complaintModel.update_of_getById
    (Complaint.toPatch { c with
      responses := c.responses ++ [Response.posted user body.response uuid createdAt]
      status := body.status.or c.status
      updatedAt := updatedAt }) hc
  unfold respondToComplaint
  simp only [hm, Bool.not_true, Bool.false_eq_true, if_false, hc]
  rcases hupd : complaintModel.update complaints id
    (Complaint.toPatch { c with
      responses := c.responses ++ [Response.posted user body.response uuid createdAt]
      status := body.status.or c.status
      updatedAt := updatedAt }) with ⟨res, after⟩
  rw [hupd] at hu
  simp only at hu
  subst hu
  simp only [Response.posted] at hupd ⊢
  rw [hupd]

/-- The stored complaint after an accepted `respondToComplaint`. -/
theorem respondToComplaint_stored {complaints : List Complaint} {id : String} {c : Complaint}
    (user : User) (body : RespondBody) (uuid createdAt updatedAt : String)
    (hm : body.response.truthy = true)
    (hc : complaintModel.getById complaints id = some c) :
    complaintModel.getById
        (respondToComplaint complaints user id body uuid createdAt updatedAt).2 id =
      some { c with
        responses := c.responses ++ [Response.posted user body.response uuid createdAt]
        status := body.status.or c.status
        updatedAt := updatedAt } := by
  rw [respondToComplaint_ok user body uuid createdAt updatedAt hm hc]
  have := complaintModel.getById_update
    (Complaint.toPatch { c with
      responses := c.responses ++ [Response.posted user body.response uuid createdAt]
      status := body.status.or c.status
      updatedAt := updatedAt }) hc
    (by rw [Complaint.merge_toPatch]; exact complaintModel.getById_id (c := c) hc)
  rw [Complaint.merge_toPatch] at this
  exact this

/-! ## What a handler can leave in the collection -/

theorem complaintModel.mem_update_toPatch {cs : List Complaint} {id : String}
    {c d : Complaint} (h : d ∈ (complaintModel.update cs id c.toPatch).2) :
    d ∈ cs ∨ d = c := by
  rcases complaintModel.mem_update h with h | ⟨c0, _, _, hd⟩
  · exact Or.inl h
  · rw [Complaint.merge_toPatch] at hd
    exact Or.inr hd

theorem createComplaint_mem {cs : List Complaint} {user : User} {body : CreateBody}
    {uuid createdAt updatedAt : String} {d : Complaint}
    (h : d ∈ (createComplaint cs user body uuid createdAt updatedAt).2) :
    d ∈ cs ∨ d =
      { id := uuid, userId := user.id, userName := user.name, title := body.title,
        description := body.description, category := body.category,
        status := .str "pending", responses := [], rating := .num 0,
        createdAt := createdAt, updatedAt := updatedAt } := by
  unfold createComplaint at h
  split at h
  · exact Or.inl h
  · simpa [complaintModel.create] using h

theorem respondToComplaint_mem {cs : List Complaint} {user : User} {id : String}
    {body : RespondBody} {uuid createdAt updatedAt : String} {d : Complaint}
    (h : d ∈ (respondToComplaint cs user id body uuid createdAt updatedAt).2) :
    d ∈ cs ∨ ∃ c ∈ cs, body.response.truthy = true ∧ d =
      { c with
        responses := c.responses ++ [Response.posted user body.response uuid createdAt]
        status := body.status.or c.status
        updatedAt := updatedAt } := by
  unfold respondToComplaint at h
  split at h
  · exact Or.inl h
  · rename_i hm
    have hm : body.response.truthy = true := by simpa using hm
    split at h
    · exact Or.inl h
    · rename_i c hc
      have hcm := complaintModel.getById_mem hc
      dsimp only at h
      split at h
      all_goals
        rename_i after heq
        have hafter := congrArg Prod.snd heq
        simp only at hafter
        rw [← hafter] at h
        rcases complaintModel.mem_update_toPatch h with h | h
        · exact Or.inl h
        · exact Or.inr ⟨c, hcm, hm, h⟩

theorem updateComplaintStatus_mem {cs : List Complaint} {id : String} {status : JsValue}
    {now : String} {d : Complaint} (h : d ∈ (updateComplaintStatus cs id status now).2) :
    d ∈ cs ∨ ∃ c ∈ cs, (status.truthy = true ∧ includesStatus status = true) ∧
      d = { c with status := status, updatedAt := now } := by
  unfold updateComplaintStatus at h
  split at h
  · exact Or.inl h
  · rename_i hg
    have hg : status.truthy = true ∧ includesStatus status = true := by simpa using hg
    split at h
    · exact Or.inl h
    · rename_i c hc
      have hcm := complaintModel.getById_mem hc
      dsimp only at h
      split at h
      all_goals
        rename_i after heq
        have hafter := congrArg Prod.snd heq
        simp only at hafter
        rw [← hafter] at h
        rcases complaintModel.mem_update_toPatch h with h | h
        · exact Or.inl h
        · exact Or.inr ⟨c, hcm, hg, h⟩

theorem rateComplaint_mem {cs : List Complaint} {user : User} {id : String} {r : JsValue}
    {now : String} {d : Complaint} (h : d ∈ (rateComplaint cs user id r now).2) :
    d ∈ cs ∨ ∃ c ∈ cs, ValidRating r ∧ d = { c with rating := r, updatedAt := now } := by
  unfold rateComplaint at h
  split at h
  · exact Or.inl h
  · rename_i hg
    have hr : ValidRating r := (ratingGuard_false_iff r).1 (by simpa using hg)
    split at h
    · exact Or.inl h
    · rename_i c hc
      have hcm := complaintModel.getById_mem hc
      split at h
      · exact Or.inl h
      · split at h
        · exact Or.inl h
        · dsimp only at h
          split at h
          all_goals
            rename_i after heq
            have hafter := congrArg Prod.snd heq
            simp only at hafter
            rw [← hafter] at h
            rcases complaintModel.mem_update_toPatch h with h | h
            · exact Or.inl h
            · exact Or.inr ⟨c, hcm, hr, h⟩

theorem reachable_runRequests {cs : List Complaint} (reqs : List ComplaintRequest)
    (h : Reachable cs) : Reachable (runRequests cs reqs) := by
  induction reqs generalizing cs with
  | nil => exact h
  | cons req rest ih => exact ih (Reachable.step req h)

/-! ## Claims on replies -/

/-- C4: evaluation at the failing input. The complaint `resolvedComplaint` has
status 'resolved' and is owned by the customer `alice`; her reply through
`respondToComplaint` is answered 200 and appended to the stored responses,
where the claim asks for a failure that appends nothing. -/
theorem respondToComplaint_reply_on_resolved_accepted :
    resolvedComplaint.status = .str "resolved" ∧ resolvedComplaint.userId = alice.id ∧
    alice.role = "customer" ∧
    (respondToComplaint [resolvedComplaint] alice "c-1" (replyBody "still broken")
      "r-2" "t2" "t2").1.status = 200 ∧
    (respondToComplaint [resolvedComplaint] alice "c-1" (replyBody "still broken")
      "r-2" "t2" "t2").2 =
      [{ resolvedComplaint with
         responses := resolvedComplaint.responses ++
           [Response.posted alice (.str "still broken") "r-2" "t2"]
         updatedAt := "t2" }] := by
  decide

/-- The handler makes no test of the complaint's status: on every complaint whose
status is 'resolved' or 'closed', a reply with a non-empty message and no
status, posted by its owner through `respondToComplaint`, is answered 200 and
appended to the stored complaint, whose status stays as it was. -/
theorem respondToComplaint_ignores_status (complaints : List Complaint) (user : User)
    (id : String) (body : RespondBody) (uuid createdAt updatedAt : String) (c : Complaint)
    (hc : complaintModel.getById complaints id = some c)
    (_hs : c.status = .str "resolved" ∨ c.status = .str "closed")
    (hown : c.userId = user.id)
    (hm : body.response.truthy = true) (hst : body.status = .undefined) :
    (respondToComplaint complaints user id body uuid createdAt updatedAt).1.status = 200 ∧
    complaintModel.getById
        (respondToComplaint complaints user id body uuid createdAt updatedAt).2 id =
      some { c with
        responses := c.responses ++
          [{ id := uuid, adminId := c.userId, adminName := user.name,
             message := body.response, statusChange := .undefined, createdAt := createdAt }]
        updatedAt := updatedAt } := by
  refine ⟨?_, ?_⟩
  · rw [respondToComplaint_ok user body uuid createdAt updatedAt hm hc]
  · rw [respondToComplaint_stored user body uuid createdAt updatedAt hm hc]
    simp [Response.posted, hst, JsValue.or, JsValue.truthy, hown]

theorem respondToComplaint_ignores_status_witness :
    (complaintModel.getById [resolvedComplaint] "c-1" = some resolvedComplaint ∧
      (resolvedComplaint.status = .str "resolved" ∨ resolvedComplaint.status = .str "closed") ∧
      resolvedComplaint.userId = alice.id ∧
      (replyBody "still broken").response.truthy = true ∧
      (replyBody "still broken").status = .undefined) ∧
    ((respondToComplaint [resolvedComplaint] alice "c-1" (replyBody "still broken")
        "r-2" "t2" "t2").1.status = 200 ∧
      complaintModel.getById
          (respondToComplaint [resolvedComplaint] alice "c-1" (replyBody "still broken")
            "r-2" "t2" "t2").2 "c-1" =
        some { resolvedComplaint with
          responses := resolvedComplaint.responses ++
            [{ id := "r-2", adminId := resolvedComplaint.userId, adminName := alice.name,
               message := (replyBody "still broken").response, statusChange := .undefined,
               createdAt := "t2" }]
          updatedAt := "t2" }) :=
  ⟨⟨by decide, by decide, by decide, by decide, by decide⟩,
    respondToComplaint_ignores_status [resolvedComplaint] alice "c-1" (replyBody "still broken")
      "r-2" "t2" "t2" resolvedComplaint (by decide) (by decide) (by decide) (by decide)
      (by decide)⟩

/-- C5 (as stated) fails: starting from the empty store the customer `alice` files
a complaint and posts four replies in a row; all are answered 200, the fourth
although the three responses before it are hers, and the stored thread ends
with four responses posted by her. -/
theorem respondToComplaint_fourth_reply_accepted :
    alice.role = "customer" ∧
    runStatuses [] (.post alice billingBody "c-1" "t0" "t0" :: replyRun alice "c-1" fourPosts) =
      [201, 200, 200, 200, 200] ∧
    runRequests [] (.post alice billingBody "c-1" "t0" "t0" :: replyRun alice "c-1" fourPosts) =
      [{ aliceComplaint with
         responses := fourPosts.map (fun post => Response.posted alice post.1 post.2.1 post.2.2)
         updatedAt := "t4" }] ∧
    (fourPosts.map (fun post => Response.posted alice post.1 post.2.1 post.2.2)).length = 4 ∧
    ∀ r ∈ fourPosts.map (fun post => Response.posted alice post.1 post.2.1 post.2.2),
      r.adminId = alice.id := by
  decide

/-- C5 (amended): the handler places no bound on consecutive replies. Whatever a
complaint's responses already are, any run of replies with non-empty messages
posted by one caller is answered 200 throughout, and the stored thread grows
by exactly these replies, in order, with the status unchanged. -/
theorem respondToComplaint_run_unbounded (posts : List (JsValue × String × String))
    (user : User) (id : String) (complaints : List Complaint) (c : Complaint)
    (hc : complaintModel.getById complaints id = some c)
    (hm : ∀ post ∈ posts, post.1.truthy = true) :
    runStatuses complaints (replyRun user id posts) = List.replicate posts.length 200 ∧
    ∃ d, complaintModel.getById (runRequests complaints (replyRun user id posts)) id = some d ∧
      d.responses =
        c.responses ++ posts.map (fun post => Response.posted user post.1 post.2.1 post.2.2) ∧
      d.status = c.status := by
  induction posts generalizing complaints c with
  | nil => exact ⟨rfl, c, hc, by simp, rfl⟩
  | cons post rest ih =>
    have hp : post.1.truthy = true := hm post (List.mem_cons_self _ _)
    have hrest : ∀ q ∈ rest, q.1.truthy = true := fun q hq => hm q (List.mem_cons_of_mem _ hq)
    have hok := respondToComplaint_ok user { response := post.1, status := .undefined }
      post.2.1 post.2.2 post.2.2 hp hc
    have hst := respondToComplaint_stored user { response := post.1, status := .undefined }
      post.2.1 post.2.2 post.2.2 hp hc
    obtain ⟨hstat, d, hd, hresp, hstatus⟩ := ih _ _ hst hrest
    refine ⟨?_, d, ?_, ?_, ?_⟩
    · simp only [replyRun, List.map_cons, runStatuses, complaintsRouter, List.length_cons,
        List.replicate_succ]
      rw [← replyRun, hstat, hok]
    · simpa only [replyRun, List.map_cons, runRequests, complaintsRouter] using hd
    · rw [hresp]
      simp
    · rw [hstatus]
      simp [JsValue.or, JsValue.truthy]

theorem respondToComplaint_run_unbounded_witness :
    (complaintModel.getById [aliceComplaint] "c-1" = some aliceComplaint ∧
      ∀ post ∈ fourPosts, post.1.truthy = true) ∧
    (runStatuses [aliceComplaint] (replyRun alice "c-1" fourPosts) =
        List.replicate fourPosts.length 200 ∧
      ∃ d, complaintModel.getById
          (runRequests [aliceComplaint] (replyRun alice "c-1" fourPosts)) "c-1" = some d ∧
        d.responses = aliceComplaint.responses ++
          fourPosts.map (fun post => Response.posted alice post.1 post.2.1 post.2.2) ∧
        d.status = aliceComplaint.status) :=
  ⟨⟨by decide, by decide⟩,
    respondToComplaint_run_unbounded fourPosts alice "c-1" [aliceComplaint] aliceComplaint
      (by decide) (by decide)⟩

/-- C6: evaluation at the failing input. The caller `alice` has role 'customer',
and the response `respondToComplaint` appends for her carries
`adminName = "Alice"` (and her id as `adminId`). -/
theorem respondToComplaint_customer_reply_has_adminName :
    alice.role = "customer" ∧
    (respondToComplaint [aliceComplaint] alice "c-1" (replyBody "any news?")
      "r-1" "t1" "t1").1.status = 200 ∧
    (respondToComplaint [aliceComplaint] alice "c-1" (replyBody "any news?")
      "r-1" "t1" "t1").2 =
      [{ aliceComplaint with
         responses := [{ id := "r-1", adminId := "u-alice", adminName := .str "Alice",
                         message := .str "any news?", statusChange := .undefined,
                         createdAt := "t1" }]
         updatedAt := "t1" }] ∧
    (JsValue.str "Alice").truthy = true ∧ JsValue.str "Alice" ≠ JsValue.undefined := by
  decide

/-- C7: evaluation at the failing input. The caller `bob` is a customer and not
the owner of `aliceComplaint`, and his respond request is answered 200 and
changes the stored complaint. -/
theorem respondToComplaint_foreign_customer_accepted :
    bob.role ≠ "admin" ∧ bob.id ≠ aliceComplaint.userId ∧
    complaintModel.getById [aliceComplaint] "c-1" = some aliceComplaint ∧
    (complaintsRouter [aliceComplaint]
      (.respond bob "c-1" (replyBody "not my ticket") "r-1" "t1" "t1")).1.status = 200 ∧
    (complaintsRouter [aliceComplaint]
      (.respond bob "c-1" (replyBody "not my ticket") "r-1" "t1" "t1")).2 =
      [{ aliceComplaint with
         responses := [Response.posted bob (.str "not my ticket") "r-1" "t1"]
         updatedAt := "t1" }] ∧
    (complaintsRouter [aliceComplaint]
      (.respond bob "c-1" (replyBody "not my ticket") "r-1" "t1" "t1")).2 ≠ [aliceComplaint] := by
  decide

/-! ## Invariants of the reachable collections -/

/-- C9: evaluation at the failing input. From the empty store, a complaint is
filed and its owner posts a reply whose body names the status "banana"; the
request is answered 200 and the reachable store then holds a complaint whose
status is none of the four. -/
theorem respondToComplaint_stores_unknown_status :
    Reachable (runRequests []
      [.post alice billingBody "c-1" "t0" "t0", .respond alice "c-1" bananaBody "r-1" "t1" "t1"]) ∧
    runStatuses []
      [.post alice billingBody "c-1" "t0" "t0", .respond alice "c-1" bananaBody "r-1" "t1" "t1"] =
      [201, 200] ∧
    ∃ c ∈ runRequests []
        [.post alice billingBody "c-1" "t0" "t0", .respond alice "c-1" bananaBody "r-1" "t1" "t1"],
      c.status = .str "banana" ∧ ¬ KnownStatus c.status := by
  refine ⟨reachable_runRequests _ Reachable.init, by decide, ?_⟩
  refine ⟨{ aliceComplaint with
      status := .str "banana"
      responses := [Response.posted alice (.str "please look") "r-1" "t1"]
      updatedAt := "t1" }, by decide, rfl, ?_⟩
  unfold KnownStatus
  decide

/-- C10: in every store reachable from the empty store through the complaint
routes, every complaint's rating is the number 0 or one of the integers 1 to 5. -/
theorem reachable_rating_range (complaints : List Complaint) (h : Reachable complaints) :
    ∀ c ∈ complaints, c.rating = .num 0 ∨ ValidRating c.rating := by
  induction h with
  | init => intro c hc; simp at hc
  | @step cs req _ ih =>
    intro d hd
    cases req with
    | post user body uuid createdAt updatedAt =>
      rcases createComplaint_mem hd with h | h
      · exact ih d h
      · exact Or.inl (by rw [h])
    | respond user id body uuid createdAt updatedAt =>
      rcases respondToComplaint_mem hd with h | ⟨c, hc, _, h⟩
      · exact ih d h
      · rw [h]; exact ih c hc
    | patchStatus user id status now =>
      simp only [complaintsRouter] at hd
      split at hd
      · exact ih d hd
      · rcases updateComplaintStatus_mem hd with h | ⟨c, hc, _, h⟩
        · exact ih d h
        · rw [h]; exact ih c hc
    | rate user id rating now =>
      rcases rateComplaint_mem hd with h | ⟨c, _, hr, h⟩
      · exact ih d h
      · rw [h]; exact Or.inr hr

theorem reachable_rating_range_witness :
    Reachable (runRequests [] ratedSession) ∧
    runRequests [] ratedSession = [ratedComplaint] ∧
    ∀ c ∈ runRequests [] ratedSession, c.rating = .num 0 ∨ ValidRating c.rating :=
  ⟨reachable_runRequests _ Reachable.init, by decide,
    reachable_rating_range (runRequests [] ratedSession)
      (reachable_runRequests _ Reachable.init)⟩

/-! ## The user directory -/

theorem JsValue.strictEq_iff_eq_of_isPrimitive {a b : JsValue} (hb : b.isPrimitive = true) :
    a.strictEq b = true ↔ a = b := by
  cases a <;> cases b <;> simp_all [JsValue.strictEq, JsValue.isPrimitive]

/-- For a username that is not an array or object, `userModel.create` keeps the
usernames of the collection different from one another. -/
theorem userModel.create_unique {users : List User} (user : User)
    (hprim : user.username.isPrimitive = true)
    (h : UniqueUsernames users) : UniqueUsernames (userModel.create users user).2 := by
  unfold userModel.create
  cases hf : users.find? (fun u => u.username.strictEq user.username) with
  | some u => exact h
  | none =>
    have hnone := List.find?_eq_none.1 hf
    show UniqueUsernames (users ++ [user])
    unfold UniqueUsernames at h ⊢
    rw [List.pairwise_append]
    refine ⟨h, List.pairwise_singleton _ _, ?_⟩
    intro a ha b hb
    rw [List.mem_singleton] at hb
    subst hb
    intro heq
    have hne := hnone a ha
    rw [(JsValue.strictEq_iff_eq_of_isPrimitive hprim).2 heq] at hne
    exact hne rfl

theorem register_unique {users : List User} (bcrypt : Bcrypt) (body : RegisterBody)
    (uuid salt now : String) (hprim : body.username.isPrimitive = true)
    (h : UniqueUsernames users) :
    UniqueUsernames (register bcrypt users body uuid salt now).2 := by
  unfold register
  split
  · exact h
  · split
    · exact h
    · split
      · dsimp only
        split
        all_goals
          rename_i after heq
          have hafter := congrArg Prod.snd heq
          simp only at hafter
          rw [← hafter]
          exact userModel.create_unique _ hprim h
      · exact h

theorem createAdmin_unique {users : List User} (bcrypt : Bcrypt)
    (envAdminSecret : Option String) (body : RegisterBody)
    (uuid salt now : String) (hprim : body.username.isPrimitive = true)
    (h : UniqueUsernames users) :
    UniqueUsernames (createAdmin bcrypt envAdminSecret users body uuid salt now).2 := by
  unfold createAdmin
  split
  · exact h
  · split
    · exact h
    · split
      · exact h
      · split
        · dsimp only
          split
          all_goals
            rename_i after heq
            have hafter := congrArg Prod.snd heq
            simp only at hafter
            rw [← hafter]
            exact userModel.create_unique _ hprim h
        · exact h

/-- What holds of username uniqueness: for a username that is a string, number or
boolean, `userModel.create`, `register` and `createAdmin` keep the usernames of
the collection different from one another, and a `create` whose username a
record already has throws 'Username already exists' and writes nothing. -/
theorem username_uniqueness_preserved (users : List User) (user : User)
    (hprim : user.username.isPrimitive = true) (h : UniqueUsernames users) :
    UniqueUsernames (userModel.create users user).2 ∧
    (∀ (bcrypt : Bcrypt) (body : RegisterBody) (uuid salt now : String),
      body.username.isPrimitive = true →
      UniqueUsernames (register bcrypt users body uuid salt now).2) ∧
    (∀ (bcrypt : Bcrypt) (envAdminSecret : Option String) (body : RegisterBody)
        (uuid salt now : String), body.username.isPrimitive = true →
      UniqueUsernames (createAdmin bcrypt envAdminSecret users body uuid salt now).2) ∧
    ((∃ u ∈ users, u.username = user.username) →
      userModel.create users user = (.error "Username already exists", users)) := by
  refine ⟨userModel.create_unique user hprim h, fun bcrypt body uuid salt now hb =>
    register_unique bcrypt body uuid salt now hb h, fun bcrypt env body uuid salt now hb =>
    createAdmin_unique bcrypt env body uuid salt now hb h, ?_⟩
  rintro ⟨u, hu, heq⟩
  unfold userModel.create
  cases hf : users.find? (fun u => u.username.strictEq user.username) with
  | some v => rfl
  | none =>
    have := List.find?_eq_none.1 hf u hu
    rw [(JsValue.strictEq_iff_eq_of_isPrimitive hprim).2 heq] at this
    exact absurd rfl this

theorem username_uniqueness_preserved_witness :
    UniqueUsernames [alice, bob] ∧
    UniqueUsernames (userModel.create [alice, bob] { alice with id := "u-3" }).2 ∧
    UniqueUsernames (register ⟨fun s salt => salt ++ s, fun _ _ => false⟩ [alice, bob]
      { username := .str "carol", password := .str "pw", name := .str "Carol",
        email := .str "c@x.com" } "u-4" "salt" "t5").2 ∧
    userModel.create [alice, bob] { alice with id := "u-3" } =
      (.error "Username already exists", [alice, bob]) :=
  ⟨by unfold UniqueUsernames; decide,
    (username_uniqueness_preserved [alice, bob] { alice with id := "u-3" } rfl
      (by unfold UniqueUsernames; decide)).1,
    (username_uniqueness_preserved [alice, bob] { alice with id := "u-3" } rfl
      (by unfold UniqueUsernames; decide)).2.1 _ _ _ _ _ rfl,
    (username_uniqueness_preserved [alice, bob] { alice with id := "u-3" } rfl
      (by unfold UniqueUsernames; decide)).2.2.2 ⟨alice, by simp, rfl⟩⟩

/-- C8: evaluation at the failing input. `POST /auth/register` is sent twice with the
username `["alice"]`. Both requests are answered 201, because `===` never finds
the stored array equal to the one in the body; `userModel.create` does not
throw 'Username already exists' and pushes the second record, and the
collection, unique before, then holds two users with the same username. -/
theorem register_twice_with_array_username :
    (register sampleBcrypt [] arrayRegistration "u-1" "salt" "t0").1.status = 201 ∧
    (register sampleBcrypt [] arrayRegistration "u-1" "salt" "t0").2 = [arrayUser "u-1" "t0"] ∧
    UniqueUsernames [arrayUser "u-1" "t0"] ∧
    (register sampleBcrypt [arrayUser "u-1" "t0"] arrayRegistration "u-2" "salt" "t1").1.status
      = 201 ∧
    (register sampleBcrypt [arrayUser "u-1" "t0"] arrayRegistration "u-2" "salt" "t1").2 =
      [arrayUser "u-1" "t0", arrayUser "u-2" "t1"] ∧
    (userModel.create [arrayUser "u-1" "t0"] (arrayUser "u-2" "t1")).2 =
      [arrayUser "u-1" "t0", arrayUser "u-2" "t1"] ∧
    (arrayUser "u-1" "t0").username = (arrayUser "u-2" "t1").username ∧
    ¬ UniqueUsernames [arrayUser "u-1" "t0", arrayUser "u-2" "t1"] := by
  refine ⟨by decide, by decide, ?_, by decide, by decide, by decide, rfl, ?_⟩
  · unfold UniqueUsernames; decide
  · unfold UniqueUsernames; decide

/-! ## The shape of an in-place update -/

theorem findIdx_none_of_find_none {α : Type} (p : α → Bool) (l : List α)
    (h : l.find? p = none) : l.findIdx? p = none := by
  induction l with
  | nil => rfl
  | cons x xs ih =>
    rw [List.find?_cons] at h
    cases hx : p x with
    | true => simp [hx] at h
    | false =>
      simp only [hx] at h
      simp [List.findIdx?_cons, hx, List.findIdx?_succ, ih h]

/-- When `find` meets `c`, the list splits around the first match, `findIndex` is its
position and the element there is `c`. -/
theorem find_some_split {α : Type} (p : α → Bool) (l : List α) (c : α)
    (h : l.find? p = some c) :
    ∃ pre post, l = pre ++ c :: post ∧ (∀ x ∈ pre, p x = false) ∧ p c = true ∧
      l.findIdx? p = some pre.length ∧ l.get? pre.length = some c := by
  induction l with
  | nil => simp at h
  | cons x xs ih =>
    rw [List.find?_cons] at h
    cases hx : p x with
    | true =>
      simp only [hx, Option.some.injEq] at h
      subst h
      exact ⟨[], xs, rfl, by simp, hx, by simp [List.findIdx?_cons, hx], rfl⟩
    | false =>
      simp only [hx] at h
      obtain ⟨pre, post, hl, hpre, hc, hidx, hget⟩ := ih h
      refine ⟨x :: pre, post, by rw [hl]; rfl, ?_, hc, ?_, ?_⟩
      · intro y hy
        rcases List.mem_cons.1 hy with rfl | hy
        · exact hx
        · exact hpre y hy
      · simp [List.findIdx?_cons, hx, List.findIdx?_succ, hidx]
      · simpa using hget

theorem set_at_split {α : Type} (pre post : List α) (c d : α) :
    (pre ++ c :: post).set pre.length d = pre ++ d :: post := by
  induction pre with
  | nil => rfl
  | cons x xs ih => simp [ih]

/-- The result of `complaintModel.update` when no record has the id. -/
theorem complaintModel.update_absent {cs : List Complaint} {id : String}
    (p : ComplaintPatch) (h : complaintModel.getById cs id = none) :
    complaintModel.update cs id p = (.error "Complaint not found", cs) := by
  unfold complaintModel.update
  rw [findIdx_none_of_find_none _ _ h]

/-- The result of `complaintModel.update` when `getById` finds `c`: the first record
with the id is replaced by the merge, everything around it stays. -/
theorem complaintModel.update_split {cs : List Complaint} {id : String} {c : Complaint}
    (p : ComplaintPatch) (h : complaintModel.getById cs id = some c) :
    ∃ pre post, cs = pre ++ c :: post ∧ (∀ x ∈ pre, x.id ≠ id) ∧
      complaintModel.update cs id p = (.ok (c.merge p), pre ++ c.merge p :: post) := by
  obtain ⟨pre, post, hl, hpre, _, hidx, hget⟩ := find_some_split _ cs c h
  refine ⟨pre, post, hl, ?_, ?_⟩
  · intro x hx
    simpa using hpre x hx
  · unfold complaintModel.update
    rw [hidx]
    simp only [hget]
    rw [hl, set_at_split]

/-- The result of `userModel.update` when no record has the id. -/
theorem userModel.update_user_absent {users : List User} {id : String}
    (p : UserPatch) (h : userModel.getById users id = none) :
    userModel.update users id p = (.error "User not found", users) := by
  unfold userModel.update
  rw [findIdx_none_of_find_none _ _ h]

/-- The result of `userModel.update` when `getById` finds `u`. -/
theorem userModel.update_user_split {users : List User} {id : String} {u : User}
    (p : UserPatch) (h : userModel.getById users id = some u) :
    ∃ pre post, users = pre ++ u :: post ∧ (∀ x ∈ pre, x.id ≠ id) ∧
      userModel.update users id p = (.ok (u.merge p), pre ++ u.merge p :: post) := by
  obtain ⟨pre, post, hl, hpre, _, hidx, hget⟩ := find_some_split _ users u h
  refine ⟨pre, post, hl, ?_, ?_⟩
  · intro x hx
    simpa using hpre x hx
  · unfold userModel.update
    rw [hidx]
    simp only [hget]
    rw [hl, set_at_split]

/-! ## Outcomes of the writing handlers -/

/-- The guard of `updateComplaintStatus` lets through exactly the four statuses. -/
theorem statusGuard_false_iff (status : JsValue) :
    (!status.truthy || !includesStatus status) = false ↔ KnownStatus status := by
  cases status with
  | str s =>
    simp only [includesStatus, validStatuses, JsValue.strictEq, JsValue.truthy, KnownStatus,
      List.any_cons, List.any_nil, Bool.or_false, Bool.or_eq_false_iff, Bool.not_eq_false',
      decide_eq_true_eq, Bool.or_eq_true, beq_iff_eq, JsValue.str.injEq]
    constructor
    · rintro ⟨_, h⟩
      rcases h with h | h | h | h
      · exact Or.inl h.symm
      · exact Or.inr (Or.inl h.symm)
      · exact Or.inr (Or.inr (Or.inl h.symm))
      · exact Or.inr (Or.inr (Or.inr h.symm))
    · intro h
      rcases h with h | h | h | h <;> subst h <;> decide
  | _ => simp [includesStatus, validStatuses, JsValue.strictEq, JsValue.truthy, KnownStatus]

/-- The outcome of `updateComplaintStatus` for a valid status on an existing complaint. -/
theorem updateComplaintStatus_ok {complaints : List Complaint} {id : String}
    {status : JsValue} {c : Complaint} (now : String) (hs : KnownStatus status)
    (hc : complaintModel.getById complaints id = some c) :
    updateComplaintStatus complaints id status now =
      ({ status := 200, message := "Complaint status updated successfully",
         complaint := some { c with status := status, updatedAt := now } },
        (complaintModel.update complaints id
          (Complaint.toPatch { c with status := status, updatedAt := now })).2) := by
  have hg := (statusGuard_false_iff status).2 hs
  have hu := complaintModel.update_of_getById
    (Complaint.toPatch { c with status := status, updatedAt := now }) hc
  unfold updateComplaintStatus
  rw [hg]
  simp only [Bool.false_eq_true, if_false, hc]
  rcases hupd : complaintModel.update complaints id
    (Complaint.toPatch { c with status := status, updatedAt := now }) with ⟨res, after⟩
  rw [hupd] at hu
  simp only at hu
  subst hu
  rfl

theorem updateComplaintStatus_invalid {complaints : List Complaint} {id : String}
    {status : JsValue} (now : String) (hs : ¬ KnownStatus status) :
    updateComplaintStatus complaints id status now =
      ({ status := 400, message := "Valid status is required" }, complaints) := by
  have hg : (!status.truthy || !includesStatus status) = true := by
    rw [← Bool.not_eq_false]
    exact fun h => hs ((statusGuard_false_iff status).1 h)
  unfold updateComplaintStatus
  rw [hg]
  rfl

theorem updateComplaintStatus_absent {complaints : List Complaint} {id : String}
    {status : JsValue} (now : String) (hs : KnownStatus status)
    (hc : complaintModel.getById complaints id = none) :
    updateComplaintStatus complaints id status now =
      ({ status := 404, message := "Complaint not found" }, complaints) := by
  unfold updateComplaintStatus
  rw [(statusGuard_false_iff status).2 hs]
  simp [hc]

/-- Either `respondToComplaint` is not answered 200 and writes nothing, or it is
answered 200 and replaces the first record with the id by that record with
the new response appended. -/
theorem respondToComplaint_shape (cs : List Complaint) (user : User) (id : String)
    (body : RespondBody) (uuid createdAt updatedAt : String) :
    ((respondToComplaint cs user id body uuid createdAt updatedAt).1.status ≠ 200 ∧
      (respondToComplaint cs user id body uuid createdAt updatedAt).2 = cs) ∨
    ((respondToComplaint cs user id body uuid createdAt updatedAt).1.status = 200 ∧
      body.response.truthy = true ∧
      ∃ pre c post, cs = pre ++ c :: post ∧ (∀ x ∈ pre, x.id ≠ id) ∧
        complaintModel.getById cs id = some c ∧
        (respondToComplaint cs user id body uuid createdAt updatedAt).2 =
          pre ++ { c with
            responses := c.responses ++ [Response.posted user body.response uuid createdAt]
            status := body.status.or c.status
            updatedAt := updatedAt } :: post) := by
  by_cases hm : body.response.truthy = true
  · cases hc : complaintModel.getById cs id with
    | none =>
      left
      unfold respondToComplaint
      simp [hm, hc]
    | some c =>
      right
      obtain ⟨pre, post, hl, hpre, hupd⟩ := complaintModel.update_split
        (Complaint.toPatch { c with
          responses := c.responses ++ [Response.posted user body.response uuid createdAt]
          status := body.status.or c.status
          updatedAt := updatedAt }) hc
      rw [respondToComplaint_ok user body uuid createdAt updatedAt hm hc, hupd,
        Complaint.merge_toPatch]
      exact ⟨rfl, hm, pre, c, post, hl, hpre, rfl, rfl⟩
  · left
    unfold respondToComplaint
    simp [hm]

/-- The same for `updateComplaintStatus`. -/
theorem updateComplaintStatus_shape (cs : List Complaint) (id : String)
    (status : JsValue) (now : String) :
    ((updateComplaintStatus cs id status now).1.status ≠ 200 ∧
      (updateComplaintStatus cs id status now).2 = cs) ∨
    ((updateComplaintStatus cs id status now).1.status = 200 ∧ KnownStatus status ∧
      ∃ pre c post, cs = pre ++ c :: post ∧ (∀ x ∈ pre, x.id ≠ id) ∧
        complaintModel.getById cs id = some c ∧
        (updateComplaintStatus cs id status now).2 =
          pre ++ { c with status := status, updatedAt := now } :: post) := by
  by_cases hs : KnownStatus status
  · cases hc : complaintModel.getById cs id with
    | none =>
      left
      rw [updateComplaintStatus_absent now hs hc]
      exact ⟨by simp, rfl⟩
    | some c =>
      right
      obtain ⟨pre, post, hl, hpre, hupd⟩ := complaintModel.update_split
        (Complaint.toPatch { c with status := status, updatedAt := now }) hc
      rw [updateComplaintStatus_ok now hs hc, hupd, Complaint.merge_toPatch]
      exact ⟨rfl, hs, pre, c, post, hl, hpre, rfl, rfl⟩
  · left
    rw [updateComplaintStatus_invalid now hs]
    exact ⟨by simp, rfl⟩

/-- The same for `rateComplaint`. -/
theorem rateComplaint_shape (cs : List Complaint) (user : User) (id : String)
    (r : JsValue) (now : String) :
    ((rateComplaint cs user id r now).1.status ≠ 200 ∧
      (rateComplaint cs user id r now).2 = cs) ∨
    ((rateComplaint cs user id r now).1.status = 200 ∧ ValidRating r ∧
      ∃ pre c post, cs = pre ++ c :: post ∧ (∀ x ∈ pre, x.id ≠ id) ∧
        complaintModel.getById cs id = some c ∧
        (rateComplaint cs user id r now).2 =
          pre ++ { c with rating := r, updatedAt := now } :: post) := by
  by_cases hr : ValidRating r
  · have hg := (ratingGuard_false_iff r).2 hr
    cases hc : complaintModel.getById cs id with
    | none =>
      left
      unfold rateComplaint
      rw [hg]
      simp [hc]
    | some c =>
      by_cases hown : c.userId = user.id
      · by_cases hres : c.status = .str "resolved"
        · right
          obtain ⟨pre, post, hl, hpre, hupd⟩ := complaintModel.update_split
            (Complaint.toPatch { c with rating := r, updatedAt := now }) hc
          rw [rateComplaint_ok now hr hc hown hres, hupd, Complaint.merge_toPatch]
          exact ⟨rfl, hr, pre, c, post, hl, hpre, rfl, rfl⟩
        · left
          have hs : c.status.strictEq (.str "resolved") = false := by
            rw [← Bool.not_eq_true, JsValue.strictEq_str]
            exact hres
          unfold rateComplaint
          rw [hg]
          simp [hc, hown, hs]
      · left
        unfold rateComplaint
        rw [hg]
        simp [hc, hown]
  · left
    have hg : (!r.truthy || r.ltNum 1 || r.gtNum 5 || !r.isInteger) = true := by
      rw [← Bool.not_eq_false]
      exact fun h => hr ((ratingGuard_false_iff r).1 h)
    unfold rateComplaint
    rw [hg]
    exact ⟨by simp, rfl⟩

theorem forall₂_self {α : Type} (R : α → α → Prop) (hR : ∀ a, R a a) (l : List α) :
    List.Forall₂ R l l := by
  induction l with
  | nil => exact List.Forall₂.nil
  | cons x xs ih => exact List.Forall₂.cons (hR x) ih

theorem forall₂_replace {α : Type} (R : α → α → Prop) (hR : ∀ a, R a a)
    (pre post : List α) {c d : α} (h : R c d) :
    List.Forall₂ R (pre ++ c :: post) (pre ++ d :: post) := by
  induction pre with
  | nil => exact List.Forall₂.cons h (forall₂_self R hR post)
  | cons x xs ih => exact List.Forall₂.cons (hR x) ih

/-! ## Claims on the effect of the writing handlers -/

/-- C11: responses are append-only. For each of `respondToComplaint`,
`updateComplaintStatus` and `rateComplaint`, whatever the request, the
collection after the call holds the same complaints position by position (same
id), and each complaint's responses before the call are a prefix of its
responses after the call. -/
theorem responses_append_only (cs : List Complaint) (user : User) (id : String)
    (body : RespondBody) (uuid createdAt updatedAt : String) (status rating : JsValue)
    (now : String) :
    List.Forall₂ (fun before after => before.id = after.id ∧
        before.responses <+: after.responses) cs
      (respondToComplaint cs user id body uuid createdAt updatedAt).2 ∧
    List.Forall₂ (fun before after => before.id = after.id ∧
        before.responses <+: after.responses) cs
      (updateComplaintStatus cs id status now).2 ∧
    List.Forall₂ (fun before after => before.id = after.id ∧
        before.responses <+: after.responses) cs
      (rateComplaint cs user id rating now).2 := by
  have hrefl : ∀ a : Complaint, a.id = a.id ∧ a.responses <+: a.responses :=
    fun a => ⟨rfl, List.prefix_refl _⟩
  refine ⟨?_, ?_, ?_⟩
  · rcases respondToComplaint_shape cs user id body uuid createdAt updatedAt with
      ⟨_, h⟩ | ⟨_, _, pre, c, post, hl, _, _, h⟩
    · rw [h]; exact forall₂_self _ hrefl cs
    · rw [h]
      conv => lhs; rw [hl]
      exact forall₂_replace _ hrefl pre post ⟨rfl, List.prefix_append _ _⟩
  · rcases updateComplaintStatus_shape cs id status now with
      ⟨_, h⟩ | ⟨_, _, pre, c, post, hl, _, _, h⟩
    · rw [h]; exact forall₂_self _ hrefl cs
    · rw [h]
      conv => lhs; rw [hl]
      exact forall₂_replace _ hrefl pre post ⟨rfl, List.prefix_refl _⟩
  · rcases rateComplaint_shape cs user id rating now with
      ⟨_, h⟩ | ⟨_, _, pre, c, post, hl, _, _, h⟩
    · rw [h]; exact forall₂_self _ hrefl cs
    · rw [h]
      conv => lhs; rw [hl]
      exact forall₂_replace _ hrefl pre post ⟨rfl, List.prefix_refl _⟩

/-- C12: for every `respondToComplaint` call answered 200 with message `m` on a
complaint with responses `R` and status `s`, the stored complaint's responses
are `R` followed by exactly one new response whose message is `m`, and its
status is the supplied status when that is present (passes the `||` test, as
every non-empty string does) and `s` otherwise. -/
theorem respondToComplaint_effect (cs : List Complaint) (user : User) (id : String)
    (body : RespondBody) (uuid createdAt updatedAt : String)
    (h200 : (respondToComplaint cs user id body uuid createdAt updatedAt).1.status = 200) :
    ∃ c d r, complaintModel.getById cs id = some c ∧
      complaintModel.getById
        (respondToComplaint cs user id body uuid createdAt updatedAt).2 id = some d ∧
      (respondToComplaint cs user id body uuid createdAt updatedAt).1.complaint = some d ∧
      d.responses = c.responses ++ [r] ∧ r.message = body.response ∧
      (body.status.truthy = true → d.status = body.status) ∧
      (body.status.truthy = false → d.status = c.status) := by
  rcases respondToComplaint_shape cs user id body uuid createdAt updatedAt with
    ⟨hne, _⟩ | ⟨_, hm, pre, c, post, _, _, hc, _⟩
  · exact absurd h200 hne
  · refine ⟨c, _, Response.posted user body.response uuid createdAt, hc,
      respondToComplaint_stored user body uuid createdAt updatedAt hm hc, ?_, rfl, rfl, ?_, ?_⟩
    · rw [respondToComplaint_ok user body uuid createdAt updatedAt hm hc]
    · intro ht
      simp [JsValue.or, ht]
    · intro ht
      simp [JsValue.or, ht]

theorem respondToComplaint_effect_witness :
    (respondToComplaint [aliceComplaint] root "c-1"
      { response := .str "fixed", status := .str "resolved" } "r-1" "t1" "t1").1.status = 200 ∧
    ∃ c d r, complaintModel.getById [aliceComplaint] "c-1" = some c ∧
      complaintModel.getById
        (respondToComplaint [aliceComplaint] root "c-1"
          { response := .str "fixed", status := .str "resolved" } "r-1" "t1" "t1").2 "c-1" =
        some d ∧
      (respondToComplaint [aliceComplaint] root "c-1"
        { response := .str "fixed", status := .str "resolved" } "r-1" "t1" "t1").1.complaint =
        some d ∧
      d.responses = c.responses ++ [r] ∧ r.message = .str "fixed" ∧
      ((JsValue.str "resolved").truthy = true → d.status = .str "resolved") ∧
      ((JsValue.str "resolved").truthy = false → d.status = c.status) :=
  ⟨by decide,
    respondToComplaint_effect [aliceComplaint] root "c-1"
      { response := .str "fixed", status := .str "resolved" } "r-1" "t1" "t1" (by decide)⟩

/-- C13: evaluation at the failing input. The administrator `root` answers
`aliceComplaint` with the message "fixed" and the new status 'resolved'; the
request is answered 200, the complaint becomes resolved, and the response
appended has no `statusChange` (the field reads `undefined`). -/
theorem respondToComplaint_no_statusChange :
    root.role = "admin" ∧
    (respondToComplaint [aliceComplaint] root "c-1"
      { response := .str "fixed", status := .str "resolved" } "r-1" "t1" "t1").1.status = 200 ∧
    (respondToComplaint [aliceComplaint] root "c-1"
      { response := .str "fixed", status := .str "resolved" } "r-1" "t1" "t1").2 =
      [{ aliceComplaint with
         status := .str "resolved"
         responses := [{ id := "r-1", adminId := "u-root", adminName := .str "Root",
                         message := .str "fixed", statusChange := .undefined,
                         createdAt := "t1" }]
         updatedAt := "t1" }] ∧
    JsValue.undefined ≠ JsValue.str "resolved" := by
  decide

/-- C14: `updateComplaintStatus` answers 400 exactly when the supplied status is
missing or not one of the four; with a valid status it answers 404 exactly
when no complaint has the id; otherwise it answers 200 and the stored
complaint's status is the supplied one, whatever it was before. -/
theorem updateComplaintStatus_outcome (cs : List Complaint) (id : String)
    (status : JsValue) (now : String) :
    ((updateComplaintStatus cs id status now).1.status = 400 ↔ ¬ KnownStatus status) ∧
    (KnownStatus status →
      ((updateComplaintStatus cs id status now).1.status = 404 ↔
        complaintModel.getById cs id = none)) ∧
    (KnownStatus status → ∀ c, complaintModel.getById cs id = some c →
      (updateComplaintStatus cs id status now).1.status = 200 ∧
      complaintModel.getById (updateComplaintStatus cs id status now).2 id =
        some { c with status := status, updatedAt := now }) := by
  have hstored : KnownStatus status → ∀ c, complaintModel.getById cs id = some c →
      (updateComplaintStatus cs id status now).1.status = 200 ∧
      complaintModel.getById (updateComplaintStatus cs id status now).2 id =
        some { c with status := status, updatedAt := now } := by
    intro hs c hc
    rw [updateComplaintStatus_ok now hs hc]
    refine ⟨rfl, ?_⟩
    have := complaintModel.getById_update
      (Complaint.toPatch { c with status := status, updatedAt := now }) hc
      (by rw [Complaint.merge_toPatch]; exact complaintModel.getById_id (c := c) hc)
    rw [Complaint.merge_toPatch] at this
    exact this
  refine ⟨⟨?_, ?_⟩, ?_, hstored⟩
  · intro h400 hs
    cases hc : complaintModel.getById cs id with
    | none => rw [updateComplaintStatus_absent now hs hc] at h400; simp at h400
    | some c => rw [(hstored hs c hc).1] at h400; omega
  · intro hs
    rw [updateComplaintStatus_invalid now hs]
  · intro hs
    constructor
    · intro h404
      cases hc : complaintModel.getById cs id with
      | none => rfl
      | some c => rw [(hstored hs c hc).1] at h404; omega
    · intro hc
      rw [updateComplaintStatus_absent now hs hc]

theorem updateComplaintStatus_outcome_witness :
    (updateComplaintStatus [resolvedComplaint] "c-1" (.str "pending") "t3").1.status = 200 ∧
    complaintModel.getById
        (updateComplaintStatus [resolvedComplaint] "c-1" (.str "pending") "t3").2 "c-1" =
      some { resolvedComplaint with status := .str "pending", updatedAt := "t3" } :=
  (updateComplaintStatus_outcome [resolvedComplaint] "c-1" (.str "pending") "t3").2.2
    (Or.inl rfl) resolvedComplaint (by decide)

/-- C15: a `updateComplaintStatus` call answered 200 replaces the first complaint
with the id by a record that differs from it in `status` and `updatedAt` only
(responses, rating, id, userId, userName, title, description, category and
createdAt are the old ones), and leaves every other complaint of the
collection as it was, in place. -/
theorem updateComplaintStatus_frame (cs : List Complaint) (id : String)
    (status : JsValue) (now : String)
    (h200 : (updateComplaintStatus cs id status now).1.status = 200) :
    ∃ pre c d post, cs = pre ++ c :: post ∧ (∀ x ∈ pre, x.id ≠ id) ∧ c.id = id ∧
      (updateComplaintStatus cs id status now).2 = pre ++ d :: post ∧
      d.status = status ∧ d.updatedAt = now ∧
      d.responses = c.responses ∧ d.rating = c.rating ∧ d.id = c.id ∧
      d.userId = c.userId ∧ d.userName = c.userName ∧ d.title = c.title ∧
      d.description = c.description ∧ d.category = c.category ∧
      d.createdAt = c.createdAt := by
  rcases updateComplaintStatus_shape cs id status now with
    ⟨hne, _⟩ | ⟨_, _, pre, c, post, hl, hpre, hc, h⟩
  · exact absurd h200 hne
  · exact ⟨pre, c, _, post, hl, hpre, complaintModel.getById_id hc, h,
      rfl, rfl, rfl, rfl, rfl, rfl, rfl, rfl, rfl, rfl, rfl⟩

theorem updateComplaintStatus_frame_witness :
    (updateComplaintStatus [bobComplaint, aliceComplaint] "c-1" (.str "closed") "t3").1.status
      = 200 ∧
    (updateComplaintStatus [bobComplaint, aliceComplaint] "c-1" (.str "closed") "t3").2 =
      [bobComplaint, { aliceComplaint with status := .str "closed", updatedAt := "t3" }] ∧
    ∃ pre c d post, [bobComplaint, aliceComplaint] = pre ++ c :: post ∧
      (∀ x ∈ pre, x.id ≠ "c-1") ∧ c.id = "c-1" ∧
      (updateComplaintStatus [bobComplaint, aliceComplaint] "c-1" (.str "closed") "t3").2 =
        pre ++ d :: post ∧
      d.status = .str "closed" ∧ d.updatedAt = "t3" ∧
      d.responses = c.responses ∧ d.rating = c.rating ∧ d.id = c.id ∧
      d.userId = c.userId ∧ d.userName = c.userName ∧ d.title = c.title ∧
      d.description = c.description ∧ d.category = c.category ∧
      d.createdAt = c.createdAt :=
  ⟨by decide, by decide,
    updateComplaintStatus_frame [bobComplaint, aliceComplaint] "c-1" (.str "closed") "t3"
      (by decide)⟩

/-- C16: a complaint's id and userId are immutable. For each of
`respondToComplaint`, `updateComplaintStatus` and `rateComplaint`, whatever the
request, the collection after the call holds, position by position,
complaints with the id and the userId they had before. -/
theorem id_and_userId_immutable (cs : List Complaint) (user : User) (id : String)
    (body : RespondBody) (uuid createdAt updatedAt : String) (status rating : JsValue)
    (now : String) :
    List.Forall₂ (fun before after => after.id = before.id ∧ after.userId = before.userId) cs
      (respondToComplaint cs user id body uuid createdAt updatedAt).2 ∧
    List.Forall₂ (fun before after => after.id = before.id ∧ after.userId = before.userId) cs
      (updateComplaintStatus cs id status now).2 ∧
    List.Forall₂ (fun before after => after.id = before.id ∧ after.userId = before.userId) cs
      (rateComplaint cs user id rating now).2 := by
  have hrefl : ∀ a : Complaint, a.id = a.id ∧ a.userId = a.userId := fun _ => ⟨rfl, rfl⟩
  refine ⟨?_, ?_, ?_⟩
  · rcases respondToComplaint_shape cs user id body uuid createdAt updatedAt with
      ⟨_, h⟩ | ⟨_, _, pre, c, post, hl, _, _, h⟩
    · rw [h]; exact forall₂_self _ hrefl cs
    · rw [h]
      conv => lhs; rw [hl]
      exact forall₂_replace _ hrefl pre post ⟨rfl, rfl⟩
  · rcases updateComplaintStatus_shape cs id status now with
      ⟨_, h⟩ | ⟨_, _, pre, c, post, hl, _, _, h⟩
    · rw [h]; exact forall₂_self _ hrefl cs
    · rw [h]
      conv => lhs; rw [hl]
      exact forall₂_replace _ hrefl pre post ⟨rfl, rfl⟩
  · rcases rateComplaint_shape cs user id rating now with
      ⟨_, h⟩ | ⟨_, _, pre, c, post, hl, _, _, h⟩
    · rw [h]; exact forall₂_self _ hrefl cs
    · rw [h]
      conv => lhs; rw [hl]
      exact forall₂_replace _ hrefl pre post ⟨rfl, rfl⟩

/-! ## Claims on the repositories -/

theorem getByUser_exact_aux (cs : List Complaint) (u : String) :
    ∀ c, c ∈ complaintModel.getByUser cs u ↔ c ∈ cs ∧ c.userId = u := by
  intro c
  simp [complaintModel.getByUser, List.mem_filter]

/-- C17: for every collection and every userId `u`, `complaintModel.getByUser`
returns exactly the complaints whose userId is `u`: a complaint is in the
result if and only if it is in the collection with that userId, the result is
a subsequence of the collection in the same relative order, and it equals
the collection filtered by `userId = u`. -/
theorem getByUser_exact (cs : List Complaint) (u : String) :
    (∀ c, c ∈ complaintModel.getByUser cs u ↔ c ∈ cs ∧ c.userId = u) ∧
    List.Sublist (complaintModel.getByUser cs u) cs ∧
    complaintModel.getByUser cs u = cs.filter (fun c => decide (c.userId = u)) := by
  refine ⟨?_, ?_, ?_⟩
  · exact getByUser_exact_aux cs u
  · exact List.filter_sublist cs
  · rfl

/-- C18: for every store and every caller `customer` who is not an admin, every
complaint `getComplaints` returns to that caller is owned by the caller and is
also in what `getComplaints` returns to any admin on the same store. -/
theorem getComplaints_customer_subset (cs : List Complaint) (customer admin : User)
    (hc : customer.role ≠ "admin") (ha : admin.role = "admin") :
    (getComplaints cs customer).status = 200 ∧ (getComplaints cs admin).status = 200 ∧
    (getComplaints cs admin).complaints = cs ∧
    ∀ x ∈ (getComplaints cs customer).complaints,
      x.userId = customer.id ∧
      ∃ y ∈ (getComplaints cs admin).complaints, y.id = x.id ∧ y = x := by
  have hcust : getComplaints cs customer =
      { status := 200, complaints := complaintModel.getByUser cs customer.id } := by
    simp [getComplaints, hc]
  have hadm : getComplaints cs admin = { status := 200, complaints := cs } := by
    simp [getComplaints, ha]
  rw [hcust, hadm]
  refine ⟨rfl, rfl, rfl, ?_⟩
  intro x hx
  have hx := ((getByUser_exact_aux cs customer.id) x).1 hx
  exact ⟨hx.2, x, hx.1, rfl, rfl⟩

theorem getComplaints_customer_subset_witness :
    (alice.role ≠ "admin" ∧ root.role = "admin") ∧
    (getComplaints [bobComplaint, aliceComplaint] alice).complaints = [aliceComplaint] ∧
    ((getComplaints [bobComplaint, aliceComplaint] alice).status = 200 ∧
      (getComplaints [bobComplaint, aliceComplaint] root).status = 200 ∧
      (getComplaints [bobComplaint, aliceComplaint] root).complaints =
        [bobComplaint, aliceComplaint] ∧
      ∀ x ∈ (getComplaints [bobComplaint, aliceComplaint] alice).complaints,
        x.userId = alice.id ∧
        ∃ y ∈ (getComplaints [bobComplaint, aliceComplaint] root).complaints,
          y.id = x.id ∧ y = x) :=
  ⟨⟨by decide, by decide⟩, by decide,
    getComplaints_customer_subset [bobComplaint, aliceComplaint] alice root
      (by decide) (by decide)⟩

/-- C19 (as stated) fails: the collection already holds a record with the id "c-1";
after `create` of another record with that id, `getById "c-1"` returns the
older record, which differs from the one created. -/
theorem create_then_getById_returns_older :
    cloneComplaint.id = "c-1" ∧
    (complaintModel.create [aliceComplaint] cloneComplaint).2 =
      [aliceComplaint, cloneComplaint] ∧
    complaintModel.getById (complaintModel.create [aliceComplaint] cloneComplaint).2
      cloneComplaint.id = some aliceComplaint ∧
    aliceComplaint ≠ cloneComplaint := by
  decide

/-- C19 (amended): round trip. For every collection and every record `c` whose id
no record of the collection has, `complaintModel.create` returns `c`, and
afterwards `complaintModel.getById` at `c.id` returns `c` itself. -/
theorem create_then_getById (cs : List Complaint) (c : Complaint)
    (hfresh : complaintModel.getById cs c.id = none) :
    (complaintModel.create cs c).1 = c ∧
    complaintModel.getById (complaintModel.create cs c).2 c.id = some c := by
  refine ⟨rfl, ?_⟩
  unfold complaintModel.getById at hfresh ⊢
  show List.find? _ (cs ++ [c]) = some c
  rw [List.find?_append, hfresh]
  simp

theorem create_then_getById_witness :
    complaintModel.getById [aliceComplaint] bobComplaint.id = none ∧
    ((complaintModel.create [aliceComplaint] bobComplaint).1 = bobComplaint ∧
      complaintModel.getById (complaintModel.create [aliceComplaint] bobComplaint).2
        bobComplaint.id = some bobComplaint) :=
  ⟨by decide, create_then_getById [aliceComplaint] bobComplaint (by decide)⟩

/-- C20: for `complaintModel.update` and `userModel.update` alike. If no record has
the id, the call throws NotFound and the collection is as before. Otherwise
the first record with the id is replaced, in place, by its shallow merge with
the partial: every field the partial names takes the partial's value and
every field it does not name keeps the record's value (stated for each of
the eleven complaint fields and the seven user fields); the records before
and after it, their order and the length of the collection are unchanged. -/
theorem update_shallow_merge (cs : List Complaint) (id : String) (p : ComplaintPatch)
    (users : List User) (uid : String) (q : UserPatch) :
    (complaintModel.getById cs id = none →
      complaintModel.update cs id p = (.error "Complaint not found", cs)) ∧
    (∀ c, complaintModel.getById cs id = some c →
      ∃ pre post, cs = pre ++ c :: post ∧ (∀ x ∈ pre, x.id ≠ id) ∧
        complaintModel.update cs id p = (.ok (c.merge p), pre ++ c.merge p :: post) ∧
        (complaintModel.update cs id p).2.length = cs.length ∧
        (∀ v, p.status = some v → (c.merge p).status = v) ∧
        (p.status = none → (c.merge p).status = c.status) ∧
        (∀ v, p.responses = some v → (c.merge p).responses = v) ∧
        (p.responses = none → (c.merge p).responses = c.responses) ∧
        (∀ v, p.rating = some v → (c.merge p).rating = v) ∧
        (p.rating = none → (c.merge p).rating = c.rating) ∧
        (∀ v, p.id = some v → (c.merge p).id = v) ∧
        (p.id = none → (c.merge p).id = c.id) ∧
        (∀ v, p.userId = some v → (c.merge p).userId = v) ∧
        (p.userId = none → (c.merge p).userId = c.userId) ∧
        (∀ v, p.userName = some v → (c.merge p).userName = v) ∧
        (p.userName = none → (c.merge p).userName = c.userName) ∧
        (∀ v, p.title = some v → (c.merge p).title = v) ∧
        (p.title = none → (c.merge p).title = c.title) ∧
        (∀ v, p.description = some v → (c.merge p).description = v) ∧
        (p.description = none → (c.merge p).description = c.description) ∧
        (∀ v, p.category = some v → (c.merge p).category = v) ∧
        (p.category = none → (c.merge p).category = c.category) ∧
        (∀ v, p.createdAt = some v → (c.merge p).createdAt = v) ∧
        (p.createdAt = none → (c.merge p).createdAt = c.createdAt) ∧
        (∀ v, p.updatedAt = some v → (c.merge p).updatedAt = v) ∧
        (p.updatedAt = none → (c.merge p).updatedAt = c.updatedAt)) ∧
    (userModel.getById users uid = none →
      userModel.update users uid q = (.error "User not found", users)) ∧
    (∀ u, userModel.getById users uid = some u →
      ∃ pre post, users = pre ++ u :: post ∧ (∀ x ∈ pre, x.id ≠ uid) ∧
        userModel.update users uid q = (.ok (u.merge q), pre ++ u.merge q :: post) ∧
        (userModel.update users uid q).2.length = users.length ∧
        (∀ v, q.name = some v → (u.merge q).name = v) ∧
        (q.name = none → (u.merge q).name = u.name) ∧
        (∀ v, q.email = some v → (u.merge q).email = v) ∧
        (q.email = none → (u.merge q).email = u.email) ∧
        (∀ v, q.password = some v → (u.merge q).password = v) ∧
        (q.password = none → (u.merge q).password = u.password) ∧
        (∀ v, q.id = some v → (u.merge q).id = v) ∧
        (q.id = none → (u.merge q).id = u.id) ∧
        (∀ v, q.username = some v → (u.merge q).username = v) ∧
        (q.username = none → (u.merge q).username = u.username) ∧
        (∀ v, q.role = some v → (u.merge q).role = v) ∧
        (q.role = none → (u.merge q).role = u.role) ∧
        (∀ v, q.createdAt = some v → (u.merge q).createdAt = v) ∧
        (q.createdAt = none → (u.merge q).createdAt = u.createdAt)) := by
  refine ⟨complaintModel.update_absent p, ?_, userModel.update_user_absent q, ?_⟩
  · intro c hc
    obtain ⟨pre, post, hl, hpre, hupd⟩ := complaintModel.update_split p hc
    refine ⟨pre, post, hl, hpre, hupd, ?_, ?_, ?_, ?_, ?_, ?_, ?_, ?_, ?_, ?_, ?_, ?_, ?_, ?_, ?_, ?_, ?_, ?_, ?_, ?_, ?_, ?_, ?_⟩
    · rw [hupd, hl]; simp
    all_goals
      intro h
      try intro h'
      simp_all [Complaint.merge]
  · intro u hu
    obtain ⟨pre, post, hl, hpre, hupd⟩ := userModel.update_user_split q hu
    refine ⟨pre, post, hl, hpre, hupd, ?_, ?_, ?_, ?_, ?_, ?_, ?_, ?_, ?_, ?_, ?_, ?_, ?_, ?_, ?_⟩
    · rw [hupd, hl]; simp
    all_goals
      intro h
      try intro h'
      simp_all [User.merge]

theorem update_shallow_merge_witness :
    (complaintModel.getById [bobComplaint, aliceComplaint] "c-1" = some aliceComplaint ∧
      userModel.getById [alice, bob] "u-zed" = none) ∧
    (∃ pre post, [bobComplaint, aliceComplaint] = pre ++ aliceComplaint :: post ∧
      (∀ x ∈ pre, x.id ≠ "c-1") ∧
      complaintModel.update [bobComplaint, aliceComplaint] "c-1"
          { status := some (.str "closed") } =
        (.ok (aliceComplaint.merge { status := some (.str "closed") }),
          pre ++ aliceComplaint.merge { status := some (.str "closed") } :: post)) ∧
    userModel.update [alice, bob] "u-zed" { name := some (.str "Zed") } =
      (.error "User not found", [alice, bob]) :=
  ⟨⟨by decide, by decide⟩,
    (((update_shallow_merge [bobComplaint, aliceComplaint] "c-1"
      { status := some (.str "closed") } [alice, bob] "u-zed"
      { name := some (.str "Zed") }).2.1 aliceComplaint (by decide)).imp
        fun _ h => h.imp fun _ h' => ⟨h'.1, h'.2.1, h'.2.2.1⟩),
    (update_shallow_merge [bobComplaint, aliceComplaint] "c-1"
      { status := some (.str "closed") } [alice, bob] "u-zed"
      { name := some (.str "Zed") }).2.2.1 (by decide)⟩

/-! ## Claims on the auth controller -/

theorem JsValue.strictEq_self_str (s : String) :
    (JsValue.str s).strictEq (.str s) = true := by
  simp [JsValue.strictEq]

theorem JsValue.truthy_str (s : String) : (JsValue.str s).truthy = true ↔ s ≠ "" := by
  simp [JsValue.truthy]

/-- The reply of `login` when no record has the username. -/
theorem login_unknown {users : List User} {body : LoginBody} (bcrypt : Bcrypt)
    (hu : body.username.truthy = true) (hp : body.password.truthy = true)
    (habsent : userModel.getByUsername users body.username = none) :
    login bcrypt users body = { status := 401, message := "Invalid credentials" } := by
  unfold login
  simp only [hu, hp, Bool.not_true, Bool.or_self, Bool.false_eq_true, if_false, habsent]

/-- The reply of `login` when a record has the username and the password is a string. -/
theorem login_known {users : List User} {body : LoginBody} {user : User} {password : String}
    (bcrypt : Bcrypt)
    (hu : body.username.truthy = true) (hp : body.password = .str password)
    (hpt : password ≠ "")
    (hpresent : userModel.getByUsername users body.username = some user) :
    login bcrypt users body =
      if !bcrypt.compare password user.password then
        { status := 401, message := "Invalid credentials" }
      else
        { status := 200, message := "Login successful",
          user := some user.withoutPassword,
          token := some { id := user.id, username := user.username, role := user.role } } := by
  have hpt' : body.password.truthy = true := by rw [hp]; exact (JsValue.truthy_str _).2 hpt
  unfold login
  simp only [hu, hpt', Bool.not_true, Bool.or_self, Bool.false_eq_true, if_false, hpresent]
  rw [hp]

/-- What holds of the failure reply of `login`: for a non-empty username and a
non-empty password that is a string, the reply on a store that has no such
username and the reply on a store where the username exists but
`bcrypt.compare` rejects the password are the same reply: status 401, message
'Invalid credentials', no user and no token. -/
theorem login_failure_uniform (bcrypt : Bcrypt) (unknownIn knownIn : List User)
    (username : JsValue) (password : String) (user : User)
    (hu : username.truthy = true) (hp : password ≠ "")
    (habsent : userModel.getByUsername unknownIn username = none)
    (hpresent : userModel.getByUsername knownIn username = some user)
    (hwrong : bcrypt.compare password user.password = false) :
    login bcrypt unknownIn { username := username, password := .str password } =
      login bcrypt knownIn { username := username, password := .str password } ∧
    login bcrypt unknownIn { username := username, password := .str password } =
      { status := 401, message := "Invalid credentials" } := by
  have h1 : login bcrypt unknownIn { username := username, password := .str password } =
      { status := 401, message := "Invalid credentials" } :=
    login_unknown bcrypt hu ((JsValue.truthy_str _).2 hp) habsent
  have h2 : login bcrypt knownIn { username := username, password := .str password } =
      { status := 401, message := "Invalid credentials" } := by
    rw [login_known bcrypt hu rfl hp hpresent, hwrong]
    rfl
  exact ⟨h1.trans h2.symm, h1⟩

theorem login_failure_uniform_witness :
    ((JsValue.str "carol").truthy = true ∧ "nope" ≠ "" ∧
      userModel.getByUsername [alice, bob] (.str "carol") = none ∧
      userModel.getByUsername [alice, carol] (.str "carol") = some carol ∧
      sampleBcrypt.compare "nope" carol.password = false) ∧
    (login sampleBcrypt [alice, bob] { username := .str "carol", password := .str "nope" } =
        login sampleBcrypt [alice, carol] { username := .str "carol", password := .str "nope" } ∧
      login sampleBcrypt [alice, bob] { username := .str "carol", password := .str "nope" } =
        { status := 401, message := "Invalid credentials" }) :=
  ⟨⟨by decide, by decide, by decide, by decide, by decide⟩,
    login_failure_uniform sampleBcrypt [alice, bob] [alice, carol] (.str "carol") "nope" carol
      (by decide) (by decide) (by decide) (by decide) (by decide)⟩

/-- C21: evaluation at the failing input. The password of the body is the number
12345, which passes the handler's only test (`!password`). For the username
"carol", unknown to the store, `login` answers 401 'Invalid credentials'; on a
store that has "carol", `bcrypt.compare` rejects the non-string argument, the
`catch` answers 500 'Server error during login', and the two failure replies
tell a known username from an unknown one. -/
theorem login_numeric_password_reveals_username :
    (JsValue.str "carol").truthy = true ∧ (JsValue.num 12345).truthy = true ∧
    userModel.getByUsername [alice, bob] (.str "carol") = none ∧
    userModel.getByUsername [alice, carol] (.str "carol") = some carol ∧
    login sampleBcrypt [alice, bob] { username := .str "carol", password := .num 12345 } =
      { status := 401, message := "Invalid credentials" } ∧
    login sampleBcrypt [alice, carol] { username := .str "carol", password := .num 12345 } =
      { status := 500, message := "Server error during login" } ∧
    (login sampleBcrypt [alice, bob]
        { username := .str "carol", password := .num 12345 }).status ≠
      (login sampleBcrypt [alice, carol]
        { username := .str "carol", password := .num 12345 }).status := by
  decide

/-- The outcome of `register` for complete fields, a string password and a free
username. -/
theorem register_ok {users : List User} {body : RegisterBody} {password : String}
    (bcrypt : Bcrypt) (uuid salt now : String)
    (hu : body.username.truthy = true) (hp : body.password = .str password)
    (hpt : password ≠ "") (hn : body.name.truthy = true) (he : body.email.truthy = true)
    (hfree : userModel.getByUsername users body.username = none) :
    register bcrypt users body uuid salt now =
      ({ status := 201, message := "User registered successfully",
         user := some { id := uuid, username := body.username, name := body.name,
                        email := body.email, role := "customer", createdAt := now },
         token := some { id := uuid, username := body.username, role := "customer" } },
        users ++ [{ id := uuid, username := body.username,
                    password := bcrypt.hash password salt, name := body.name,
                    email := body.email, role := "customer", createdAt := now }]) := by
  have hfree' : List.find? (fun u => u.username.strictEq body.username) users = none := hfree
  have hpt' : body.password.truthy = true := by rw [hp]; exact (JsValue.truthy_str _).2 hpt
  unfold register
  simp only [hu, hpt', hn, he, Bool.not_true, Bool.or_self, Bool.false_eq_true, if_false, hfree]
  rw [hp]
  simp only [userModel.create, hfree', User.withoutPassword]

/-- What holds of `register` followed by `login`: on a store where the username, a
string, is free, `register` with complete fields is answered 201 and a
following `login` with the same username and password is answered 200; the two
token payloads carry the same user id (the id of the record `register`
created), the same username and role 'customer'. `bcrypt.compare` is taken to
accept a password against its own hash. -/
theorem register_then_login (bcrypt : Bcrypt) (users : List User) (body : RegisterBody)
    (username password uuid salt now : String)
    (hb : ∀ p s, bcrypt.compare p (bcrypt.hash p s) = true)
    (hu : body.username = .str username) (hut : username ≠ "")
    (hp : body.password = .str password) (hpt : password ≠ "")
    (hn : body.name.truthy = true) (he : body.email.truthy = true)
    (hfree : userModel.getByUsername users body.username = none) :
    (register bcrypt users body uuid salt now).1.status = 201 ∧
    (login bcrypt (register bcrypt users body uuid salt now).2
      { username := body.username, password := body.password }).status = 200 ∧
    ∃ created issued stored,
      (register bcrypt users body uuid salt now).1.token = some created ∧
      (login bcrypt (register bcrypt users body uuid salt now).2
        { username := body.username, password := body.password }).token = some issued ∧
      stored ∈ (register bcrypt users body uuid salt now).2 ∧ stored.id = uuid ∧
      created.id = stored.id ∧ issued.id = stored.id ∧
      created.username = body.username ∧ issued.username = body.username ∧
      created.role = "customer" ∧ issued.role = "customer" := by
  have hut' : body.username.truthy = true := by rw [hu]; exact (JsValue.truthy_str _).2 hut
  have hfree' : List.find? (fun u => u.username.strictEq body.username) users = none := hfree
  have hfound : userModel.getByUsername
      (users ++ [{ id := uuid, username := body.username,
                   password := bcrypt.hash password salt, name := body.name,
                   email := body.email, role := "customer", createdAt := now }])
      body.username =
      some { id := uuid, username := body.username,
             password := bcrypt.hash password salt, name := body.name,
             email := body.email, role := "customer", createdAt := now } := by
    unfold userModel.getByUsername
    rw [List.find?_append, hfree']
    simp [hu, JsValue.strictEq]
  rw [register_ok bcrypt uuid salt now hut' hp hpt hn he hfree]
  have hlogin : login bcrypt
      (users ++ [{ id := uuid, username := body.username,
                   password := bcrypt.hash password salt, name := body.name,
                   email := body.email, role := "customer", createdAt := now }])
      { username := body.username, password := body.password } =
      { status := 200, message := "Login successful",
        user := some { id := uuid, username := body.username, name := body.name,
                       email := body.email, role := "customer", createdAt := now },
        token := some { id := uuid, username := body.username, role := "customer" } } := by
    rw [login_known bcrypt hut' hp hpt hfound, hb]
    rfl
  rw [hlogin]
  exact ⟨rfl, rfl, _, _, _, rfl, rfl, List.mem_append_right _ (List.mem_singleton_self _),
    rfl, rfl, rfl, rfl, rfl, rfl, rfl⟩

theorem register_then_login_witness :
    (register sampleBcrypt [bob] aliceRegistration "u-1" "salt" "t0").1.status = 201 ∧
    (login sampleBcrypt (register sampleBcrypt [bob] aliceRegistration "u-1" "salt" "t0").2
      { username := aliceRegistration.username,
        password := aliceRegistration.password }).status = 200 ∧
    ∃ created issued stored,
      (register sampleBcrypt [bob] aliceRegistration "u-1" "salt" "t0").1.token = some created ∧
      (login sampleBcrypt (register sampleBcrypt [bob] aliceRegistration "u-1" "salt" "t0").2
        { username := aliceRegistration.username,
          password := aliceRegistration.password }).token = some issued ∧
      stored ∈ (register sampleBcrypt [bob] aliceRegistration "u-1" "salt" "t0").2 ∧
      stored.id = "u-1" ∧ created.id = stored.id ∧ issued.id = stored.id ∧
      created.username = aliceRegistration.username ∧
      issued.username = aliceRegistration.username ∧
      created.role = "customer" ∧ issued.role = "customer" :=
  register_then_login sampleBcrypt [bob] aliceRegistration "alice" "pw123" "u-1" "salt" "t0"
    (by intro p s; simp [sampleBcrypt]) rfl (by decide) rfl (by decide) (by decide) (by decide)
    (by decide)

/-- C22: evaluation at the failing input. The username `["alice"]` is free in the
empty store and `register` is answered 201, storing the record; the following
`login` with the same username and password is answered 401 'Invalid
credentials' with no token, although the stored hash matches the password:
`getByUsername` compares with `===`, which never finds the stored array equal
to the array of the body. -/
theorem array_username_registers_but_cannot_login :
    userModel.getByUsername [] arrayRegistration.username = none ∧
    (register sampleBcrypt [] arrayRegistration "u-1" "salt" "t0").1.status = 201 ∧
    (register sampleBcrypt [] arrayRegistration "u-1" "salt" "t0").1.token =
      some { id := "u-1", username := arrayRegistration.username, role := "customer" } ∧
    (register sampleBcrypt [] arrayRegistration "u-1" "salt" "t0").2 = [arrayUser "u-1" "t0"] ∧
    sampleBcrypt.compare "pw" (arrayUser "u-1" "t0").password = true ∧
    login sampleBcrypt (register sampleBcrypt [] arrayRegistration "u-1" "salt" "t0").2
        { username := arrayRegistration.username, password := arrayRegistration.password } =
      { status := 401, message := "Invalid credentials" } := by
  decide

/-- A `register` call answered 201 has created the record built from the body with
role 'customer' and the given id, and replies with that record less its password. -/
theorem register_created {bcrypt : Bcrypt} {users : List User} {body : RegisterBody}
    {uuid salt now : String}
    (h : (register bcrypt users body uuid salt now).1.status = 201) :
    ∃ password, body.password = .str password ∧
      register bcrypt users body uuid salt now =
        ({ status := 201, message := "User registered successfully",
           user := some (User.withoutPassword
             { id := uuid, username := body.username,
               password := bcrypt.hash password salt, name := body.name,
               email := body.email, role := "customer", createdAt := now }),
           token := some { id := uuid, username := body.username, role := "customer" } },
          users ++ [{ id := uuid, username := body.username,
                      password := bcrypt.hash password salt, name := body.name,
                      email := body.email, role := "customer", createdAt := now }]) := by
  generalize hr : register bcrypt users body uuid salt now = out at h
  unfold register at hr
  split at hr
  · subst hr; simp at h
  · split at hr
    · subst hr; simp at h
    · rename_i hfree
      have hfree' : List.find? (fun u => u.username.strictEq body.username) users = none :=
        hfree
      split at hr
      · rename_i password hp
        refine ⟨password, hp, ?_⟩
        simp only [userModel.create, hfree'] at hr
        exact hr.symm
      · subst hr; simp at h

/-- A `createAdmin` call answered 201 had the matching secret and has created the
record built from the body with role 'admin'; its reply has no user and no token. -/
theorem createAdmin_created {bcrypt : Bcrypt} {envAdminSecret : Option String}
    {users : List User} {body : RegisterBody} {uuid salt now : String}
    (h : (createAdmin bcrypt envAdminSecret users body uuid salt now).1.status = 201) :
    ∃ password, body.password = .str password ∧
      createAdmin bcrypt envAdminSecret users body uuid salt now =
        ({ status := 201, message := "Admin user created successfully" },
          users ++ [{ id := uuid, username := body.username,
                      password := bcrypt.hash password salt, name := body.name,
                      email := body.email, role := "admin", createdAt := now }]) := by
  generalize hr : createAdmin bcrypt envAdminSecret users body uuid salt now = out at h
  unfold createAdmin at hr
  split at hr
  · subst hr; simp at h
  · split at hr
    · subst hr; simp at h
    · split at hr
      · subst hr; simp at h
      · rename_i hfree
        have hfree' : List.find? (fun u => u.username.strictEq body.username) users = none :=
          hfree
        split at hr
        · rename_i password hp
          refine ⟨password, hp, ?_⟩
          simp only [userModel.create, hfree'] at hr
          exact hr.symm
        · subst hr; simp at h

/-- A `login` call answered 200 replies with a stored record less its password. -/
theorem login_accepted {bcrypt : Bcrypt} {users : List User} {body : LoginBody}
    (h : (login bcrypt users body).status = 200) :
    ∃ stored ∈ users, login bcrypt users body =
      { status := 200, message := "Login successful",
        user := some stored.withoutPassword,
        token := some { id := stored.id, username := stored.username, role := stored.role } } := by
  generalize hr : login bcrypt users body = out at h
  unfold login at hr
  split at hr
  · subst hr; simp at h
  · split at hr
    · subst hr; simp at h
    · rename_i user hfound
      have hmem : user ∈ users := List.mem_of_find?_eq_some hfound
      split at hr
      · split at hr
        · subst hr; simp at h
        · exact ⟨user, hmem, hr.symm⟩
      · subst hr; simp at h

/-- An `updateProfile` call answered 200 replies with the updated record less its
password. -/
theorem updateProfile_accepted {bcrypt : Bcrypt} {users : List User} {caller : User}
    {body : ProfileBody} {salt : String}
    (h : (updateProfile bcrypt users caller body salt).1.status = 200) :
    ∃ updated patch, userModel.update users caller.id patch =
        (.ok updated, (updateProfile bcrypt users caller body salt).2) ∧
      (updateProfile bcrypt users caller body salt).1.user = some updated.withoutPassword := by
  generalize hr : updateProfile bcrypt users caller body salt = out at h ⊢
  unfold updateProfile at hr
  split at hr
  · subst hr; simp at h
  · split at hr
    · subst hr; simp at h
    · dsimp only at hr
      split at hr
      · split at hr
        · subst hr; simp at h
        · split at hr
          · split at hr
            · subst hr; simp at h
            · split at hr
              · split at hr
                · subst hr; simp at h
                · rename_i updated after heq
                  subst hr
                  exact ⟨updated, _, heq, rfl⟩
              · subst hr; simp at h
          · subst hr; simp at h
      · split at hr
        · subst hr; simp at h
        · rename_i updated after heq
          subst hr
          exact ⟨updated, _, heq, rfl⟩

theorem PublicUser.no_password_key (u : PublicUser) :
    "password" ∉ u.toObject.map Prod.fst := by
  simp [PublicUser.toObject]

theorem User.withoutPassword_toObject (u : User) :
    u.withoutPassword.toObject = u.toObject.filter (fun field => field.1 != "password") := by
  simp [User.withoutPassword, PublicUser.toObject, User.toObject, List.filter]

/-- C23: every successful reply of `register`, `login`, `getProfile` and
`updateProfile` carries a user object that is the user record less its
`password` key, and the record `register` creates has role 'customer'
whatever the body holds (a `role` in the body included). -/
theorem replies_without_password (bcrypt : Bcrypt) (users : List User)
    (rbody : RegisterBody) (uuid salt now : String) (lbody : LoginBody) (caller : User)
    (pbody : ProfileBody) (psalt : String) :
    ((register bcrypt users rbody uuid salt now).1.status = 201 →
      ∃ stored, (register bcrypt users rbody uuid salt now).2 = users ++ [stored] ∧
        stored.id = uuid ∧ stored.role = "customer" ∧
        (register bcrypt users rbody uuid salt now).1.user = some stored.withoutPassword ∧
        "password" ∉ stored.withoutPassword.toObject.map Prod.fst) ∧
    ((login bcrypt users lbody).status = 200 →
      ∃ stored ∈ users, (login bcrypt users lbody).user = some stored.withoutPassword ∧
        "password" ∉ stored.withoutPassword.toObject.map Prod.fst) ∧
    ((getProfile caller).status = 200 ∧ (getProfile caller).user = caller.withoutPassword ∧
      "password" ∉ (getProfile caller).user.toObject.map Prod.fst) ∧
    ((updateProfile bcrypt users caller pbody psalt).1.status = 200 →
      ∃ updated : User, (updateProfile bcrypt users caller pbody psalt).1.user =
          some updated.withoutPassword ∧
        "password" ∉ updated.withoutPassword.toObject.map Prod.fst) ∧
    (∀ u : User, u.withoutPassword.toObject =
      u.toObject.filter (fun field => field.1 != "password")) := by
  refine ⟨?_, ?_, ⟨rfl, rfl, PublicUser.no_password_key _⟩, ?_, User.withoutPassword_toObject⟩
  · intro h
    obtain ⟨password, _, hreg⟩ := register_created h
    rw [hreg]
    exact ⟨_, rfl, rfl, rfl, rfl, PublicUser.no_password_key _⟩
  · intro h
    obtain ⟨stored, hmem, hlog⟩ := login_accepted h
    rw [hlog]
    exact ⟨stored, hmem, rfl, PublicUser.no_password_key _⟩
  · intro h
    obtain ⟨updated, _, _, huser⟩ := updateProfile_accepted h
    exact ⟨updated, huser, PublicUser.no_password_key _⟩

theorem replies_without_password_witness :
    pushyRegistration.role = .str "admin" ∧
    (register sampleBcrypt [carol] pushyRegistration "u-9" "salt" "t9").1.status = 201 ∧
    ∃ stored, (register sampleBcrypt [carol] pushyRegistration "u-9" "salt" "t9").2 =
        [carol] ++ [stored] ∧
      stored.id = "u-9" ∧ stored.role = "customer" ∧
      (register sampleBcrypt [carol] pushyRegistration "u-9" "salt" "t9").1.user =
        some stored.withoutPassword ∧
      "password" ∉ stored.withoutPassword.toObject.map Prod.fst :=
  ⟨rfl, by decide,
    (replies_without_password sampleBcrypt [carol] pushyRegistration "u-9" "salt" "t9"
      { username := .str "carol", password := .str "pw123" } carol wrongPasswordChange
      "salt").1 (by decide)⟩

/-- A `createAdmin` call not answered 201 writes nothing. -/
theorem createAdmin_unchanged {bcrypt : Bcrypt} {envAdminSecret : Option String}
    {users : List User} {body : RegisterBody} {uuid salt now : String}
    (h : (createAdmin bcrypt envAdminSecret users body uuid salt now).1.status ≠ 201) :
    (createAdmin bcrypt envAdminSecret users body uuid salt now).2 = users := by
  generalize hr : createAdmin bcrypt envAdminSecret users body uuid salt now = out at h ⊢
  unfold createAdmin at hr
  split at hr
  · subst hr; rfl
  · split at hr
    · subst hr; rfl
    · split at hr
      · subst hr; rfl
      · rename_i hfree
        have hfree' : List.find? (fun u => u.username.strictEq body.username) users = none :=
          hfree
        split at hr
        · simp only [userModel.create, hfree'] at hr
          subst hr
          simp at h
        · subst hr; rfl

/-- C24: `createAdmin` answers 403 whenever the supplied `adminSecret` is not the
server-held secret, whatever the other fields are, and then the user
collection is unchanged; the collection changes only when the secret matches,
and then by one appended user with role 'admin'; the 201 reply carries no
token (and no user). -/
theorem createAdmin_secret_gate (bcrypt : Bcrypt) (envAdminSecret : Option String)
    (users : List User) (body : RegisterBody) (uuid salt now : String) :
    (body.adminSecret ≠ .str (adminSecretOf envAdminSecret) →
      createAdmin bcrypt envAdminSecret users body uuid salt now =
        ({ status := 403, message := "Invalid admin secret" }, users)) ∧
    ((createAdmin bcrypt envAdminSecret users body uuid salt now).2 ≠ users →
      body.adminSecret = .str (adminSecretOf envAdminSecret) ∧
      ∃ admin, (createAdmin bcrypt envAdminSecret users body uuid salt now).2 =
        users ++ [admin] ∧ admin.role = "admin") ∧
    ((createAdmin bcrypt envAdminSecret users body uuid salt now).1.status = 201 →
      (createAdmin bcrypt envAdminSecret users body uuid salt now).1.token = none ∧
      (createAdmin bcrypt envAdminSecret users body uuid salt now).1.user = none ∧
      ∃ admin, (createAdmin bcrypt envAdminSecret users body uuid salt now).2 =
        users ++ [admin] ∧ admin.role = "admin") := by
  have hdenied : body.adminSecret ≠ .str (adminSecretOf envAdminSecret) →
      createAdmin bcrypt envAdminSecret users body uuid salt now =
        ({ status := 403, message := "Invalid admin secret" }, users) := by
    intro hne
    have hs : body.adminSecret.strictEq (.str (adminSecretOf envAdminSecret)) = false := by
      rw [← Bool.not_eq_true, JsValue.strictEq_str]
      exact hne
    unfold createAdmin
    simp [hs]
  have hcreated : (createAdmin bcrypt envAdminSecret users body uuid salt now).1.status = 201 →
      (createAdmin bcrypt envAdminSecret users body uuid salt now).1.token = none ∧
      (createAdmin bcrypt envAdminSecret users body uuid salt now).1.user = none ∧
      ∃ admin, (createAdmin bcrypt envAdminSecret users body uuid salt now).2 =
        users ++ [admin] ∧ admin.role = "admin" := by
    intro h
    obtain ⟨password, _, hc⟩ := createAdmin_created h
    rw [hc]
    exact ⟨rfl, rfl, _, rfl, rfl⟩
  refine ⟨hdenied, ?_, hcreated⟩
  intro hchanged
  by_cases h201 : (createAdmin bcrypt envAdminSecret users body uuid salt now).1.status = 201
  · refine ⟨?_, (hcreated h201).2.2⟩
    by_contra hne
    rw [hdenied hne] at h201
    simp at h201
  · exact absurd (createAdmin_unchanged h201) hchanged

theorem createAdmin_secret_gate_witness :
    createAdmin sampleBcrypt none [carol]
        { username := .str "root", password := .str "pw", name := .str "Root",
          email := .str "r@x.com", adminSecret := .str "letmein" } "u-7" "salt" "t7" =
      ({ status := 403, message := "Invalid admin secret" }, [carol]) :=
  (createAdmin_secret_gate sampleBcrypt none [carol]
    { username := .str "root", password := .str "pw", name := .str "Root",
      email := .str "r@x.com", adminSecret := .str "letmein" } "u-7" "salt" "t7").1
    (by decide)

/-- C25 (as stated) fails: `carol` asks for a new password with a current password
that `bcrypt.compare` rejects; the reply has status 400, not 401. -/
theorem updateProfile_wrong_password_is_400 :
    userModel.getById [carol] carol.id = some carol ∧
    wrongPasswordChange.newPassword.truthy = true ∧
    wrongPasswordChange.currentPassword = .str "guess" ∧
    sampleBcrypt.compare "guess" carol.password = false ∧
    (updateProfile sampleBcrypt [carol] carol wrongPasswordChange "salt").1.status = 400 ∧
    (updateProfile sampleBcrypt [carol] carol wrongPasswordChange "salt").1.status ≠ 401 ∧
    (updateProfile sampleBcrypt [carol] carol wrongPasswordChange "salt").1.message =
      "Current password is incorrect" := by
  decide

/-- C25 (amended): with name and email present and the caller's record in the
store, `updateProfile` with a `newPassword` and a `currentPassword` that
`bcrypt.compare` rejects against the stored hash is answered 400 ('Current
password is incorrect') and leaves the user collection, hence the stored
name, email and password hash, unchanged; with a `newPassword` and no
`currentPassword` it is answered 400 as well and writes nothing. -/
theorem updateProfile_password_checks (bcrypt : Bcrypt) (users : List User) (caller : User)
    (body : ProfileBody) (salt : String) (stored : User)
    (hn : body.name.truthy = true) (he : body.email.truthy = true)
    (hstored : userModel.getById users caller.id = some stored)
    (hnew : body.newPassword.truthy = true) :
    (∀ current, body.currentPassword = .str current → current ≠ "" →
      bcrypt.compare current stored.password = false →
      updateProfile bcrypt users caller body salt =
        ({ status := 400, message := "Current password is incorrect" }, users)) ∧
    (body.currentPassword.truthy = false →
      updateProfile bcrypt users caller body salt =
        ({ status := 400, message := "Current password is required to set a new password" },
          users)) := by
  constructor
  · intro current hcur hne hwrong
    have hct : body.currentPassword.truthy = true := by
      rw [hcur]; exact (JsValue.truthy_str _).2 hne
    unfold updateProfile
    simp only [hn, he, Bool.not_true, Bool.or_self, Bool.false_eq_true, if_false, hstored,
      hnew, if_true, hct]
    rw [hcur]
    simp [hwrong]
  · intro hmissing
    unfold updateProfile
    simp only [hn, he, Bool.not_true, Bool.or_self, Bool.false_eq_true, if_false, hstored,
      hnew, if_true, hmissing, Bool.not_false]

theorem updateProfile_password_checks_witness :
    (wrongPasswordChange.name.truthy = true ∧ wrongPasswordChange.email.truthy = true ∧
      userModel.getById [carol] carol.id = some carol ∧
      wrongPasswordChange.newPassword.truthy = true ∧
      wrongPasswordChange.currentPassword = .str "guess" ∧ "guess" ≠ "" ∧
      sampleBcrypt.compare "guess" carol.password = false) ∧
    updateProfile sampleBcrypt [carol] carol wrongPasswordChange "salt" =
      ({ status := 400, message := "Current password is incorrect" }, [carol]) :=
  ⟨⟨by decide, by decide, by decide, by decide, rfl, by decide, by decide⟩,
    (updateProfile_password_checks sampleBcrypt [carol] carol wrongPasswordChange "salt" carol
      (by decide) (by decide) (by decide) (by decide)).1 "guess" rfl (by decide) (by decide)⟩

/-! ## Claims on reading a complaint -/

/-- C26: `getComplaint` answers 200 with the complaint exactly when a complaint with
the id exists and the caller is an admin or its owner; it answers 404 when no
complaint has the id, and 403 when one exists but the caller is neither an
admin nor its owner. -/
theorem getComplaint_outcome (cs : List Complaint) (user : User) (id : String) :
    ((getComplaint cs user id).status = 200 ↔
      ∃ c, complaintModel.getById cs id = some c ∧
        (user.role = "admin" ∨ c.userId = user.id)) ∧
    (∀ c, complaintModel.getById cs id = some c →
      (user.role = "admin" ∨ c.userId = user.id) →
      (getComplaint cs user id).status = 200 ∧ (getComplaint cs user id).complaint = some c) ∧
    (complaintModel.getById cs id = none → (getComplaint cs user id).status = 404) ∧
    (∀ c, complaintModel.getById cs id = some c → user.role ≠ "admin" →
      c.userId ≠ user.id → (getComplaint cs user id).status = 403) := by
  have hallowed : ∀ c, complaintModel.getById cs id = some c →
      (user.role = "admin" ∨ c.userId = user.id) →
      (getComplaint cs user id).status = 200 ∧
        (getComplaint cs user id).complaint = some c := by
    intro c hc hok
    unfold getComplaint
    rcases hok with h | h <;> simp [hc, h]
  have habsent : complaintModel.getById cs id = none →
      (getComplaint cs user id).status = 404 := by
    intro hc
    simp [getComplaint, hc]
  have hdenied : ∀ c, complaintModel.getById cs id = some c → user.role ≠ "admin" →
      c.userId ≠ user.id → (getComplaint cs user id).status = 403 := by
    intro c hc hr ho
    simp [getComplaint, hc, hr, ho]
  refine ⟨⟨?_, ?_⟩, hallowed, habsent, hdenied⟩
  · intro h200
    cases hc : complaintModel.getById cs id with
    | none => rw [habsent hc] at h200; omega
    | some c =>
      refine ⟨c, rfl, ?_⟩
      by_contra hno
      rw [not_or] at hno
      rw [hdenied c hc hno.1 hno.2] at h200
      omega
  · rintro ⟨c, hc, hok⟩
    exact (hallowed c hc hok).1

theorem getComplaint_outcome_witness :
    (getComplaint [aliceComplaint] bob "c-1").status = 403 ∧
    (getComplaint [aliceComplaint] alice "c-1").status = 200 ∧
    (getComplaint [aliceComplaint] alice "c-1").complaint = some aliceComplaint :=
  ⟨(getComplaint_outcome [aliceComplaint] bob "c-1").2.2.2 aliceComplaint (by decide)
      (by decide) (by decide),
    (getComplaint_outcome [aliceComplaint] alice "c-1").2.1 aliceComplaint (by decide)
      (Or.inr (by decide))⟩

/-! ## Claims on the homepage -/

theorem orderedInsert_congr {α : Type} (r s : α → α → Prop) [DecidableRel r]
    [DecidableRel s] (a : α) (l : List α) (h : ∀ x ∈ l, (r a x ↔ s a x)) :
    l.orderedInsert r a = l.orderedInsert s a := by
  induction l with
  | nil => rfl
  | cons b l ih =>
    have hb := h b (List.mem_cons_self _ _)
    have hl : ∀ x ∈ l, (r a x ↔ s a x) := fun x hx => h x (List.mem_cons_of_mem _ hx)
    by_cases hr : r a b
    · simp [List.orderedInsert, hr, hb.1 hr]
    · have hs : ¬ s a b := fun hs => hr (hb.2 hs)
      simp [List.orderedInsert, hr, hs, ih hl]

/-- Two orders that agree on the elements of a list sort it alike. -/
theorem insertionSort_congr {α : Type} (r s : α → α → Prop) [DecidableRel r]
    [DecidableRel s] (l : List α) (h : ∀ a ∈ l, ∀ b ∈ l, (r a b ↔ s a b)) :
    l.insertionSort r = l.insertionSort s := by
  induction l with
  | nil => rfl
  | cons a l ih =>
    have hl : ∀ x ∈ l, ∀ y ∈ l, (r x y ↔ s x y) := fun x hx y hy =>
      h x (List.mem_cons_of_mem _ hx) y (List.mem_cons_of_mem _ hy)
    simp only [List.insertionSort]
    rw [ih hl]
    apply orderedInsert_congr
    intro x hx
    exact h a (List.mem_cons_self _ _) x
      (List.mem_cons_of_mem _ ((List.mem_insertionSort s).1 hx))

/-- On stamps that parse, `newerFirst` is the comparison of the time values. -/
theorem newerFirst_iff {dateMs : String → Option ℤ} {a b : Complaint} {ta tb : ℤ}
    (ha : dateMs a.createdAt = some ta) (hb : dateMs b.createdAt = some tb) :
    newerFirst dateMs a b ↔ tb ≤ ta := by
  simp [newerFirst, keepsOrder, compareCreatedAt, ha, hb]

/-- C27 (as stated) fails: of the six complaints of `undatedComplaints` only the last
has a `createdAt` that is a date. Every comparison gives `NaN`, the sort keeps
the stored order, and `recentComplaints` lists the first five: the one
complaint with a creation date, the latest there is, is left out. -/
theorem recentComplaints_drops_only_dated :
    (∀ c ∈ undatedComplaints.take 5, sampleDate c.createdAt = none) ∧
    sampleDate (stamped "f" "2024-01-06T00:00:00.000Z").createdAt = some 1704499200000 ∧
    stamped "f" "2024-01-06T00:00:00.000Z" ∈ undatedComplaints ∧
    recentComplaints sampleDate undatedComplaints =
      [publicInfo (stamped "a" "unknown"), publicInfo (stamped "b" "unknown"),
       publicInfo (stamped "c" "unknown"), publicInfo (stamped "d" "unknown"),
       publicInfo (stamped "e" "unknown")] ∧
    publicInfo (stamped "f" "2024-01-06T00:00:00.000Z") ∉
      recentComplaints sampleDate undatedComplaints := by
  decide

/-- C27 (amended): for every complaint collection the `recentComplaints` list of
`getHomepageData` has length `min 5 (number of complaints)`, and each entry
holds exactly the keys id, title, category, status, createdAt, updatedAt and
rating with the complaint's values (rating `0` when it has none), never
userId, userName, description or responses. When every `createdAt` of the
collection parses as a date, the list is the first five of the complaints
arranged from newest to oldest, so every complaint left out is no newer than
any complaint listed. -/
theorem recentComplaints_spec (dateMs : String → Option ℤ) (cs : List Complaint) :
    (recentComplaints dateMs cs).length = min 5 cs.length ∧
    (∀ entry ∈ recentComplaints dateMs cs,
      entry.map Prod.fst =
        ["id", "title", "category", "status", "createdAt", "updatedAt", "rating"] ∧
      "userId" ∉ entry.map Prod.fst ∧ "userName" ∉ entry.map Prod.fst ∧
      "description" ∉ entry.map Prod.fst ∧ "responses" ∉ entry.map Prod.fst) ∧
    ∃ sorted : List Complaint, sorted.Perm cs ∧
      recentComplaints dateMs cs = (sorted.take 5).map (fun c =>
        [("id", JsValue.str c.id), ("title", c.title), ("category", c.category),
         ("status", c.status), ("createdAt", JsValue.str c.createdAt),
         ("updatedAt", JsValue.str c.updatedAt),
         ("rating", if c.rating.truthy then c.rating else JsValue.num 0)]) ∧
      ((∀ c ∈ cs, (dateMs c.createdAt).isSome = true) →
        sorted.Pairwise (fun a b => ∃ ta tb, dateMs a.createdAt = some ta ∧
          dateMs b.createdAt = some tb ∧ tb ≤ ta) ∧
        ∀ x ∈ sorted.take 5, ∀ y ∈ sorted.drop 5, ∃ tx ty,
          dateMs x.createdAt = some tx ∧ dateMs y.createdAt = some ty ∧ ty ≤ tx) := by
  have hperm := List.perm_insertionSort (newerFirst dateMs) cs
  refine ⟨?_, ?_, cs.insertionSort (newerFirst dateMs), hperm, ?_, ?_⟩
  · simp [recentComplaints, hperm.length_eq]
  · intro entry hentry
    simp only [recentComplaints, List.mem_map] at hentry
    obtain ⟨c, _, rfl⟩ := hentry
    simp [publicInfo]
  · simp only [recentComplaints]
    congr 1
  · intro hsome
    have hparse : ∀ c ∈ cs, ∃ t, dateMs c.createdAt = some t := fun c hc =>
      Option.isSome_iff_exists.1 (hsome c hc)
    have hagree : ∀ a ∈ cs, ∀ b ∈ cs, (newerFirst dateMs a b ↔
        (dateMs b.createdAt).getD 0 ≤ (dateMs a.createdAt).getD 0) := by
      intro a ha b hb
      obtain ⟨ta, hta⟩ := hparse a ha
      obtain ⟨tb, htb⟩ := hparse b hb
      rw [newerFirst_iff hta htb, hta, htb]
      rfl
    haveI : IsTotal Complaint
        (fun a b => (dateMs b.createdAt).getD 0 ≤ (dateMs a.createdAt).getD 0) :=
      ⟨fun a b => le_total _ _⟩
    haveI : IsTrans Complaint
        (fun a b => (dateMs b.createdAt).getD 0 ≤ (dateMs a.createdAt).getD 0) :=
      ⟨fun _ _ _ hab hbc => le_trans hbc hab⟩
    have hsorted : (cs.insertionSort (newerFirst dateMs)).Pairwise
        (fun a b => (dateMs b.createdAt).getD 0 ≤ (dateMs a.createdAt).getD 0) := by
      rw [insertionSort_congr _ _ cs hagree]
      exact List.sorted_insertionSort _ cs
    have hdated : (cs.insertionSort (newerFirst dateMs)).Pairwise
        (fun a b => ∃ ta tb, dateMs a.createdAt = some ta ∧
          dateMs b.createdAt = some tb ∧ tb ≤ ta) := by
      refine List.Pairwise.imp_of_mem ?_ hsorted
      intro a b ha hb hle
      obtain ⟨ta, hta⟩ := hparse a (hperm.mem_iff.1 ha)
      obtain ⟨tb, htb⟩ := hparse b (hperm.mem_iff.1 hb)
      rw [hta, htb] at hle
      exact ⟨ta, tb, hta, htb, hle⟩
    refine ⟨hdated, ?_⟩
    intro x hx y hy
    have hsplit := hdated
    rw [← List.take_append_drop 5 (cs.insertionSort (newerFirst dateMs)),
      List.pairwise_append] at hsplit
    exact hsplit.2.2 x hx y hy

theorem recentComplaints_spec_witness :
    (∀ c ∈ sixComplaints, (sampleDate c.createdAt).isSome = true) ∧
    recentComplaints sampleDate sixComplaints =
      [publicInfo (stamped "c" "2024-01-06T00:00:00.000Z"),
       publicInfo (stamped "e" "2024-01-05T00:00:00.000Z"),
       publicInfo (stamped "f" "2024-01-04T00:00:00.000Z"),
       publicInfo (stamped "a" "2024-01-03T00:00:00.000Z"),
       publicInfo (stamped "d" "2024-01-02T00:00:00.000Z")] ∧
    (recentComplaints sampleDate sixComplaints).length = min 5 sixComplaints.length ∧
    ∃ sorted : List Complaint, sorted.Perm sixComplaints ∧
      sorted.Pairwise (fun a b => ∃ ta tb, sampleDate a.createdAt = some ta ∧
        sampleDate b.createdAt = some tb ∧ tb ≤ ta) :=
  ⟨by decide, by decide, (recentComplaints_spec sampleDate sixComplaints).1,
    (recentComplaints_spec sampleDate sixComplaints).2.2.imp fun _ h =>
      ⟨h.1, (h.2.2 (by decide)).1⟩⟩

/-! ## Claims on the customer detail view -/

/-- The loop counts the run of responses without `adminName` at the head of its
argument, and the element right after the run, if any, has an `adminName`. -/
theorem countFromEnd_split (rs : List Response) (count : Nat) :
    ∃ run rest, rs = run ++ rest ∧ countFromEnd rs count = count + run.length ∧
      (∀ r ∈ run, r.adminName.truthy = false) ∧
      (∀ r, rest.head? = some r → r.adminName.truthy = true) := by
  induction rs generalizing count with
  | nil => exact ⟨[], [], rfl, rfl, by simp, by simp⟩
  | cons x xs ih =>
    by_cases hx : x.adminName.truthy = true
    · exact ⟨[], x :: xs, rfl, by simp [countFromEnd, hx], by simp, by simp [hx]⟩
    · obtain ⟨run, rest, hxs, hcount, hrun, hrest⟩ := ih (count + 1)
      refine ⟨x :: run, rest, by rw [hxs]; rfl, ?_, ?_, hrest⟩
      · have hx' : x.adminName.truthy = false := by simpa using hx
        simp only [countFromEnd, hx', Bool.false_eq_true, if_false, hcount, List.length_cons]
        omega
      · intro r hr
        rcases List.mem_cons.1 hr with rfl | hr
        · simpa using hx
        · exact hrun r hr

/-- C28: the count the customer detail view computes for a complaint is the length
of the longest suffix of its responses in which no response has a truthy
`adminName`: the responses end with a run of that length without `adminName`,
the response just before the run (if any) has one, and no suffix free of
`adminName` is longer. And `canReply` is true exactly when the status is
neither 'resolved' nor 'closed' and the count is below 3. -/
theorem consecutiveUserMessages_spec (c : Complaint) :
    (∃ earlier run, c.responses = earlier ++ run ∧
      run.length = consecutiveUserMessages c.responses ∧
      (∀ r ∈ run, r.adminName.truthy = false) ∧
      (∀ r, earlier.getLast? = some r → r.adminName.truthy = true)) ∧
    (∀ suffix, suffix <:+ c.responses → (∀ r ∈ suffix, r.adminName.truthy = false) →
      suffix.length ≤ consecutiveUserMessages c.responses) ∧
    (canReply (some c) (consecutiveUserMessages c.responses) = true ↔
      c.status ≠ .str "resolved" ∧ c.status ≠ .str "closed" ∧
        consecutiveUserMessages c.responses < 3) := by
  obtain ⟨run, rest, hsplit, hcount, hrun, hrest⟩ := countFromEnd_split c.responses.reverse 0
  have hcount' : consecutiveUserMessages c.responses = run.length := by
    simp [consecutiveUserMessages, hcount]
  have hresp : c.responses = rest.reverse ++ run.reverse := by
    have := congrArg List.reverse hsplit
    simpa using this
  refine ⟨⟨rest.reverse, run.reverse, hresp, by simp [hcount'], ?_, ?_⟩, ?_, ?_⟩
  · intro r hr
    exact hrun r (List.mem_reverse.1 hr)
  · intro r hr
    rw [List.getLast?_reverse] at hr
    exact hrest r hr
  · intro suffix hsuf hfree
    rw [hcount']
    by_contra hlt
    push_neg at hlt
    have hpre : suffix.reverse <+: run ++ rest := by
      rw [← hsplit]
      exact List.reverse_prefix.2 hsuf
    obtain ⟨t, ht⟩ := hpre
    have hlen : run.length < suffix.reverse.length := by simpa using hlt
    have hget : (suffix.reverse ++ t)[run.length]? = (run ++ rest)[run.length]? := by rw [ht]
    rw [List.getElem?_append_left hlen, List.getElem?_append_right (le_refl _)] at hget
    simp only [Nat.sub_self] at hget
    cases hrest0 : rest with
    | nil =>
      rw [hrest0] at ht
      have := congrArg List.length ht
      simp at this
      omega
    | cons y ys =>
      rw [hrest0] at hget hrest
      simp only [List.getElem?_cons_zero] at hget
      have hy : y.adminName.truthy = true := hrest y rfl
      have hmem : y ∈ suffix := by
        have := List.mem_iff_getElem?.2 ⟨_, hget⟩
        exact List.mem_reverse.1 this
      rw [hfree y hmem] at hy
      exact Bool.false_ne_true hy
  · unfold canReply
    by_cases h1 : c.status = .str "resolved"
    · simp [h1, JsValue.strictEq]
    · by_cases h2 : c.status = .str "closed"
      · simp [h2, JsValue.strictEq]
      · have e1 : c.status.strictEq (.str "resolved") = false := by
          rw [← Bool.not_eq_true, JsValue.strictEq_str]; exact h1
        have e2 : c.status.strictEq (.str "closed") = false := by
          rw [← Bool.not_eq_true, JsValue.strictEq_str]; exact h2
        simp [e1, e2, h1, h2]

theorem consecutiveUserMessages_spec_witness :
    consecutiveUserMessages openThread.responses = 2 ∧
    canReply (some openThread) (consecutiveUserMessages openThread.responses) = true :=
  ⟨by decide,
    (consecutiveUserMessages_spec openThread).2.2.2 ⟨by decide, by decide, by decide⟩⟩

/-! ## Claims on the middleware and on failed requests -/

/-- C29: evaluation at the failing input. The caller `bob` is not an admin and the
request names, through `req.params.complaintId`, the complaint "c-1" owned by
`alice`; `ensureOwnership` sends no 403 and calls `next()`. -/
theorem ensureOwnership_passes_foreign_complaint :
    bob.role ≠ "admin" ∧
    complaintModel.getById [aliceComplaint] "c-1" = some aliceComplaint ∧
    aliceComplaint.userId ≠ bob.id ∧
    ensureOwnership bob { complaintId := some "c-1" } = none ∧
    ensureOwnership bob { userId := some "u-alice", complaintId := some "c-1" } = none := by
  decide

/-- C30: failure atomicity. Whenever `createComplaint`, `respondToComplaint`,
`updateComplaintStatus` or `rateComplaint` answers with a 4xx status (400, 403
and 404 are the ones they send), the complaint collection after the call is
the collection before the call; the same holds for every request through the
router, the 403 of `requireAdmin` included. -/
theorem failure_atomicity (cs : List Complaint) (user : User) (cbody : CreateBody)
    (uuid createdAt updatedAt id : String) (rbody : RespondBody) (status rating : JsValue)
    (now : String) :
    ((400 ≤ (createComplaint cs user cbody uuid createdAt updatedAt).1.status ∧
        (createComplaint cs user cbody uuid createdAt updatedAt).1.status < 500) →
      (createComplaint cs user cbody uuid createdAt updatedAt).2 = cs) ∧
    ((400 ≤ (respondToComplaint cs user id rbody uuid createdAt updatedAt).1.status ∧
        (respondToComplaint cs user id rbody uuid createdAt updatedAt).1.status < 500) →
      (respondToComplaint cs user id rbody uuid createdAt updatedAt).2 = cs) ∧
    ((400 ≤ (updateComplaintStatus cs id status now).1.status ∧
        (updateComplaintStatus cs id status now).1.status < 500) →
      (updateComplaintStatus cs id status now).2 = cs) ∧
    ((400 ≤ (rateComplaint cs user id rating now).1.status ∧
        (rateComplaint cs user id rating now).1.status < 500) →
      (rateComplaint cs user id rating now).2 = cs) ∧
    (∀ req : ComplaintRequest,
      (400 ≤ (complaintsRouter cs req).1.status ∧ (complaintsRouter cs req).1.status < 500) →
      (complaintsRouter cs req).2 = cs) := by
  have hcreate : ∀ (u : User) (b : CreateBody) (i t1 t2 : String),
      (400 ≤ (createComplaint cs u b i t1 t2).1.status ∧
        (createComplaint cs u b i t1 t2).1.status < 500) →
      (createComplaint cs u b i t1 t2).2 = cs := by
    intro u b i t1 t2 h
    generalize hr : createComplaint cs u b i t1 t2 = out at h ⊢
    unfold createComplaint at hr
    split at hr
    · subst hr; rfl
    · subst hr
      simp at h
  have hrespond : ∀ (u : User) (i : String) (b : RespondBody) (k t1 t2 : String),
      (400 ≤ (respondToComplaint cs u i b k t1 t2).1.status ∧
        (respondToComplaint cs u i b k t1 t2).1.status < 500) →
      (respondToComplaint cs u i b k t1 t2).2 = cs := by
    intro u i b k t1 t2 h
    rcases respondToComplaint_shape cs u i b k t1 t2 with ⟨_, hsame⟩ | ⟨h200, _⟩
    · exact hsame
    · omega
  have hstatus : ∀ (i : String) (st : JsValue) (t : String),
      (400 ≤ (updateComplaintStatus cs i st t).1.status ∧
        (updateComplaintStatus cs i st t).1.status < 500) →
      (updateComplaintStatus cs i st t).2 = cs := by
    intro i st t h
    rcases updateComplaintStatus_shape cs i st t with ⟨_, hsame⟩ | ⟨h200, _⟩
    · exact hsame
    · omega
  have hrate : ∀ (u : User) (i : String) (r : JsValue) (t : String),
      (400 ≤ (rateComplaint cs u i r t).1.status ∧
        (rateComplaint cs u i r t).1.status < 500) →
      (rateComplaint cs u i r t).2 = cs := by
    intro u i r t h
    rcases rateComplaint_shape cs u i r t with ⟨_, hsame⟩ | ⟨h200, _⟩
    · exact hsame
    · omega
  refine ⟨hcreate _ _ _ _ _, hrespond _ _ _ _ _ _, hstatus _ _ _, hrate _ _ _ _, ?_⟩
  intro req h
  cases req with
  | post u b i t1 t2 => exact hcreate u b i t1 t2 h
  | respond u i b k t1 t2 => exact hrespond u i b k t1 t2 h
  | patchStatus u i st t =>
    simp only [complaintsRouter] at h ⊢
    split
    · rfl
    · rename_i hadmin
      simp only [hadmin] at h
      exact hstatus i st t h
  | rate u i r t => exact hrate u i r t h

theorem failure_atomicity_witness :
    (rateComplaint [aliceComplaint] alice "c-1" (.num 5) "t2").1.status = 400 ∧
    (rateComplaint [aliceComplaint] alice "c-1" (.num 5) "t2").2 = [aliceComplaint] :=
  ⟨by decide,
    (failure_atomicity [aliceComplaint] alice billingBody "c-9" "t2" "t2" "c-1"
      (replyBody "hi") (.str "closed") (.num 5) "t2").2.2.2.1 (by decide)⟩

end ComplaintSystem
